import Mathlib

/-!
Verification of the `chimedb.data_index` data-index layer: the peewee table
declarations in `chimedb/data_index/orm.py` and the filename-parsing, type
detection, hashing and reference-data seeding routines in
`chimedb/data_index/util.py`.

Python strings are modelled as `List Char`; the regular expressions bound to
the module-level `_fmt_*` globals are modelled with Mathlib's
`RegularExpression`, and Python's anchored `re.match` (match at position 0,
arbitrary suffix allowed) is modelled by `re_match` below.  Database tables
are modelled as lists of row records; the row types carry the columns
declared in `orm.py`, and the insert/update/delete/get operations enforce
exactly the uniqueness constraints declared there.
-/

open RegularExpression

set_option maxRecDepth 100000

/-- Character-class regex: matches any single character from `cs`
(models a `[...]` class in a Python pattern). -/
def reClass (cs : List Char) : RegularExpression Char :=
  cs.foldr (fun c r => RegularExpression.plus (RegularExpression.char c) r)
    RegularExpression.zero

/-- Literal-string regex (models consecutive literal characters,
including `\.`-escaped dots, in a Python pattern). -/
def reStr (s : List Char) : RegularExpression Char :=
  s.foldr (fun c r => RegularExpression.comp (RegularExpression.char c) r)
    RegularExpression.epsilon

/-- `n`-fold repetition (models `{n}` in a Python pattern). -/
def reRep (r : RegularExpression Char) : Nat → RegularExpression Char
  | 0 => RegularExpression.epsilon
  | n + 1 => RegularExpression.comp r (reRep r n)

/-- The class `[0-9]` (also `\d`). -/
def reDigit : RegularExpression Char := reClass "0123456789".toList

/-- The class `[A-Za-z]`. -/
def reAlpha : RegularExpression Char :=
  reClass "ABCDEFGHIJKLMNOPQRSTUVWXYZabcdefghijklmnopqrstuvwxyz".toList

/-- The class `[A-Za-z0-9]`. -/
def reAlnum : RegularExpression Char :=
  reClass "ABCDEFGHIJKLMNOPQRSTUVWXYZabcdefghijklmnopqrstuvwxyz0123456789".toList

/-- Python `re.match(r, s)`: succeeds iff some prefix of `s` is in the
language of `r` (anchored at position 0; the match need not consume all
of `s`). -/
def re_match (r : RegularExpression Char) (s : List Char) : Bool :=
  s.inits.any fun p => r.rmatch p

/-- Python `re.fullmatch` semantics: the whole string is in the language. -/
def re_fullmatch (r : RegularExpression Char) (s : List Char) : Bool :=
  r.rmatch s

/-- `_fmt_acq = re.compile("([0-9]{8})T([0-9]{6})Z_([A-Za-z0-9]*)_([A-Za-z]*)")` -/
def fmt_acq : RegularExpression Char :=
  comp (reRep reDigit 8) (comp (char 'T') (comp (reRep reDigit 6)
    (comp (char 'Z') (comp (char '_') (comp (star reAlnum)
      (comp (char '_') (star reAlpha)))))))

/-- `_fmt_corr = re.compile("([0-9]{8})_([0-9]{4})\.h5")` -/
def fmt_corr : RegularExpression Char :=
  comp (reRep reDigit 8) (comp (char '_') (comp (reRep reDigit 4)
    (reStr ".h5".toList)))

/-- `_fmt_hfb = re.compile("hfb_([0-9]{8})_([0-9]{4})\.h5")` -/
def fmt_hfb : RegularExpression Char :=
  comp (reStr "hfb_".toList) (comp (reRep reDigit 8) (comp (char '_')
    (comp (reRep reDigit 4) (reStr ".h5".toList))))

/-- `_fmt_hk = re.compile("([A-Za-z]*)_([0-9]{8})\.h5")` -/
def fmt_hk : RegularExpression Char :=
  comp (star reAlpha) (comp (char '_') (comp (reRep reDigit 8)
    (reStr ".h5".toList)))

/-- `_fmt_hkp = re.compile("hkp_prom_([0-9]{8})\.h5")` -/
def fmt_hkp : RegularExpression Char :=
  comp (reStr "hkp_prom_".toList) (comp (reRep reDigit 8) (reStr ".h5".toList))

/-- `_fmt_atmel = re.compile("atmel_id\.dat")` -/
def fmt_atmel : RegularExpression Char := reStr "atmel_id.dat".toList

/-- `_fmt_log = re.compile("ch_(master|hk)\.log")` -/
def fmt_log : RegularExpression Char :=
  comp (reStr "ch_".toList)
    (comp (plus (reStr "master".toList) (reStr "hk".toList))
      (reStr ".log".toList))

/-- `_fmt_rawadc = re.compile("rawadc\.npy")` -/
def fmt_rawadc : RegularExpression Char := reStr "rawadc.npy".toList

/-- `_fmt_rawadc_hist = re.compile("histogram_chan([0-9]{1,2})\.pdf")` -/
def fmt_rawadc_hist : RegularExpression Char :=
  comp (reStr "histogram_chan".toList)
    (comp (plus reDigit (comp reDigit reDigit)) (reStr ".pdf".toList))

/-- `_fmt_rawadc_spec = re.compile("spectrum_chan([0-9]{1,2})\.pdf")` -/
def fmt_rawadc_spec : RegularExpression Char :=
  comp (reStr "spectrum_chan".toList)
    (comp (plus reDigit (comp reDigit reDigit)) (reStr ".pdf".toList))

/-- `_fmt_rawadc_h5 = re.compile("[0-9]{6}\.h5")` -/
def fmt_rawadc_h5 : RegularExpression Char :=
  comp (reRep reDigit 6) (reStr ".h5".toList)

/-- `_fmt_raw_gains = re.compile("(gains|gains_noisy)\.pkl")` -/
def fmt_raw_gains : RegularExpression Char :=
  comp (plus (reStr "gains".toList) (reStr "gains_noisy".toList))
    (reStr ".pkl".toList)

/-- `_fmt_weather = re.compile("(20[12][0-9][01][0-9][0123][0-9])\.h5")` -/
def fmt_weather : RegularExpression Char :=
  comp (reStr "20".toList) (comp (reClass "12".toList) (comp reDigit
    (comp (reClass "01".toList) (comp reDigit (comp (reClass "0123".toList)
      (comp reDigit (reStr ".h5".toList)))))))

/-- `_fmt_calib_data = re.compile(r"\d{8}\.h5")` -/
def fmt_calib_data : RegularExpression Char :=
  comp (reRep reDigit 8) (reStr ".h5".toList)

/-- `_fmt_misc_tar =
re.compile("([0-9]{8})_([A-Za-z][A-Za-z0-9_+-]*)\.misc\.tar(?:\.gz|\.bz2|\.xz)")` -/
def fmt_misc_tar : RegularExpression Char :=
  comp (reRep reDigit 8) (comp (char '_') (comp reAlpha
    (comp (star (reClass
        "ABCDEFGHIJKLMNOPQRSTUVWXYZabcdefghijklmnopqrstuvwxyz0123456789_+-".toList))
      (comp (reStr ".misc.tar".toList)
        (plus (reStr ".gz".toList)
          (plus (reStr ".bz2".toList) (reStr ".xz".toList)))))))

-- Filename parsing
-- ================

/-- Python `name.split("_")`: split at every underscore, keeping empty
pieces (`"".split("_") == [""]`, `"a__b".split("_") == ["a","","b"]`). -/
def pySplitU (l : List Char) : List (List Char) :=
  l.foldr
    (fun c acc =>
      if c = '_' then [] :: acc
      else
        match acc with
        | [] => [[c]]
        | h :: t => (c :: h) :: t)
    [[]]

/-- `chimedb.core.ValidationError` as raised by the parsing helpers; the
source formats the offending name into the exception message, so the
model carries the offending name. -/
structure ValidationError where
  offending : List Char
deriving DecidableEq

/-- `parse_acq_name` from `util.py`: reject unless `_fmt_acq` matches at
position 0, split on underscore, reject unless exactly three pieces. -/
def parse_acq_name (name : List Char) :
    Except ValidationError (List Char × List Char × List Char) :=
  if re_match fmt_acq name = false then
    Except.error ⟨name⟩
  else
    match pySplitU name with
    | [a, b, c] => Except.ok (a, b, c)
    | _ => Except.error ⟨name⟩

-- File-type detection
-- ===================

/-- A row of the `FileType` table (`orm.py`): `name` is a plain
`CharField` (no unique constraint), `info_class`, `pattern` and `notes`
are nullable. -/
structure FileTypeRow where
  id : Nat
  name : String
  info_class : Option String
  pattern : Option String
  notes : Option String
deriving DecidableEq

/-- `peewee`'s `Model.get` raises `DoesNotExist` when no row matches. -/
inductive GetError where
  | doesNotExist
deriving DecidableEq

/-- `FileType.get(name=n)`: first row whose name matches, else
`DoesNotExist`. -/
def fileTypeGet (db : List FileTypeRow) (n : String) : Except GetError FileTypeRow :=
  match db.find? fun r => r.name = n with
  | some r => Except.ok r
  | none => Except.error GetError.doesNotExist

/-- `detect_file_type` from `util.py`: try the `_fmt_*` patterns in the
order written in the source and fetch the `FileType` row of the first
match; `None` when nothing matches. -/
def detect_file_type (db : List FileTypeRow) (name : List Char) :
    Except GetError (Option FileTypeRow) :=
  if re_match fmt_corr name then (fileTypeGet db "corr").map some
  else if re_match fmt_hfb name then (fileTypeGet db "hfb").map some
  else if re_match fmt_hk name then (fileTypeGet db "hk").map some
  else if re_match fmt_hkp name then (fileTypeGet db "hkp").map some
  else if re_match fmt_log name then (fileTypeGet db "log").map some
  else if re_match fmt_atmel name then (fileTypeGet db "atmel_id").map some
  else if re_match fmt_rawadc name || re_match fmt_rawadc_h5 name then
    (fileTypeGet db "rawadc").map some
  else if re_match fmt_rawadc_hist name || re_match fmt_rawadc_spec name then
    (fileTypeGet db "pdf").map some
  else if re_match fmt_raw_gains name then (fileTypeGet db "pkl").map some
  else if re_match fmt_weather name then (fileTypeGet db "weather").map some
  else if re_match fmt_calib_data name then (fileTypeGet db "calibration").map some
  else if re_match fmt_misc_tar name then (fileTypeGet db "miscellaneous").map some
  else Except.ok none

/-- The spec's fixed priority order of type detection: correlator, HFB,
housekeeping, housekeeping-prometheus, log, ATMEL-ID, raw-ADC variants,
raw-ADC plot PDFs, gain pickle, weather, generic calibration,
miscellaneous tarball.  Written from the spec's words, to be compared
against `detect_file_type`. -/
def specTypeOrder : List ((List Char → Bool) × String) :=
  [(fun n => re_match fmt_corr n, "corr"),
   (fun n => re_match fmt_hfb n, "hfb"),
   (fun n => re_match fmt_hk n, "hk"),
   (fun n => re_match fmt_hkp n, "hkp"),
   (fun n => re_match fmt_log n, "log"),
   (fun n => re_match fmt_atmel n, "atmel_id"),
   (fun n => re_match fmt_rawadc n || re_match fmt_rawadc_h5 n, "rawadc"),
   (fun n => re_match fmt_rawadc_hist n || re_match fmt_rawadc_spec n, "pdf"),
   (fun n => re_match fmt_raw_gains n, "pkl"),
   (fun n => re_match fmt_weather n, "weather"),
   (fun n => re_match fmt_calib_data n, "calibration"),
   (fun n => re_match fmt_misc_tar n, "miscellaneous")]

/-- The type name of the first pattern in `specTypeOrder` that matches. -/
def firstTypeMatch (name : List Char) : Option String :=
  (specTypeOrder.find? fun e => e.1 name).map fun e => e.2

-- The `update_types` seeding routine
-- ==================================

/-- A row of the `AcqType` table (`orm.py`): `name` carries a unique
constraint. -/
structure AcqTypeRow where
  id : Nat
  name : String
  info_class : Option String
  notes : Option String
deriving DecidableEq

/-- A row of the `AcqFileTypes` junction table: the pair itself is the
composite primary key (no id column). -/
structure AcqFileTypesRow where
  acq_type : Nat
  file_type : Nat
deriving DecidableEq

/-- The tables touched by `update_types`. -/
structure TypeDB where
  acqTypes : List AcqTypeRow
  fileTypes : List FileTypeRow
  acqFileTypes : List AcqFileTypesRow
deriving DecidableEq

/-- `Model.update(**rec).where(Model.name == rec["name"]).execute()`:
set every column (the fixed id included) of every row whose name equals
`rec`'s, reporting the number of matched rows; fails (like the
underlying engine) if rewriting ids produces a duplicate primary key. -/
def sqlUpdateByName {α : Type} [DecidableEq α] (nm : α → String) (pk : α → Nat)
    (rec : α) (tbl : List α) : Option (List α × Nat) :=
  let newTbl := tbl.map fun r => if nm r = nm rec then rec else r
  let count := tbl.countP fun r => nm r = nm rec
  if newTbl = tbl then some (tbl, count)
  else if (newTbl.map pk).Nodup then some (newTbl, count)
  else none

/-- The update-then-insert-if-no-match upsert step used for each
canonical record in `update_types`. -/
def upsertByName {α : Type} [DecidableEq α] (nm : α → String) (pk : α → Nat)
    (ins : α → List α → Option (List α)) (rec : α) (tbl : List α) :
    Option (List α) :=
  match sqlUpdateByName nm pk rec tbl with
  | none => none
  | some (tbl', count) => if count = 0 then ins rec tbl else some tbl'

/-- Run the upsert step over a list of canonical records. -/
def seedTable {α : Type} [DecidableEq α] (nm : α → String) (pk : α → Nat)
    (ins : α → List α → Option (List α)) (recs : List α) (tbl : List α) :
    Option (List α) :=
  recs.foldlM (fun t r => upsertByName nm pk ins r t) tbl

/-- `AcqType.insert(**rec).execute()`: fails on a duplicate primary key or
a duplicate (unique) name. -/
def insertAcqTypeRow (rec : AcqTypeRow) (tbl : List AcqTypeRow) :
    Option (List AcqTypeRow) :=
  if tbl.any (fun r => r.id = rec.id) || tbl.any (fun r => r.name = rec.name) then none
  else some (tbl ++ [rec])

/-- `FileType.insert(**rec).execute()`: only the primary key is
constrained (`FileType.name` carries no unique constraint). -/
def insertFileTypeRow (rec : FileTypeRow) (tbl : List FileTypeRow) :
    Option (List FileTypeRow) :=
  if tbl.any fun r => r.id = rec.id then none
  else some (tbl ++ [rec])

/-- The `acqtypes` literal of `update_types`. -/
def acqtypes : List AcqTypeRow :=
  [⟨1, "corr", some "CorrAcqInfo",
    some "Traditionally hand-tooled correlation products from a correlator."⟩,
   ⟨2, "hk", none, some "Housekeeping data."⟩,
   ⟨3, "rawadc", some "RawadcAcqInfo",
    some "Raw ADC data taken for testing the status of a correlator."⟩,
   ⟨5, "weather", none,
    some "Weather data scraped from the wview archive provided by DRAO."⟩,
   ⟨6, "hkp", none,
    some "New prometheus based scheme for recording housekeeping data."⟩,
   ⟨7, "digitalgain", none, some "FPGA digital gains from the F-Engine."⟩,
   ⟨8, "gain", none, some "Complex gains from the calibration broker."⟩,
   ⟨9, "flaginput", none,
    some "Good correlator input flags from the flagging broker."⟩,
   ⟨11, "hfb", some "HFBAcqInfo",
    some "21cm absorber (Hyper Fine Beam) data taken from a correlator."⟩]

/-- The `filetypes` literal of `update_types`. -/
def filetypes : List FileTypeRow :=
  [⟨1, "corr", some "CorrFileInfo",
    some "(?P<chunk_number>[0-9]\x7b8\x7d)_(?P<freq_number>[0-9]\x7b4\x7d)\\.h5",
    some "Traditionally hand-tooled correlation products from a correlator."⟩,
   ⟨2, "log", none, none,
    some "A human-readable log file produced by acquisition software."⟩,
   ⟨3, "hk", none, none, some "A housekeeping file."⟩,
   ⟨4, "atmel_id", none, none,
    some "A short file listing the ATMEL ID's and human readable names in an HK acquisition."⟩,
   ⟨5, "rawadc", some "RawadcFileInfo", some "[0-9]\x7b6\x7d\\.h5",
    some "Raw ADC data taken for testing the status of a correlator."⟩,
   ⟨6, "pdf", none, none, some "A portable document file."⟩,
   ⟨10, "weather", some "WeatherFileInfo",
    some "(?P<date>20[1-9][0-9][01][0-9][0-3][0-9])\\.h5",
    some "Weather data scraped from the wview archive provided by DRAO."⟩,
   ⟨11, "hkp", none, none, some "Archive of the prometheus housekeeping data."⟩,
   ⟨12, "calibration", some "cal_info_class", some "[0-9]\x7b8\x7d\\.h5",
    some "Calibration data products."⟩,
   ⟨14, "hfb", some "HFBFileInfo",
    some "hfb_(?P<chunk_number>[0-9]\x7b8\x7d)_(?P<freq_number>[0-9]\x7b4\x7d)\\.h5",
    some "21cm absorber (Hyper Fine Beam) data taken from a correlator."⟩]

/-- The acqtype-to-filetype name pairs of `update_types`. -/
def acqFileTypePairs : List (String × String) :=
  [("corr", "corr"), ("rawadc", "rawadc"), ("weather", "weather"),
   ("digitalgain", "calibration"), ("gain", "calibration"),
   ("flaginput", "calibration"), ("hfb", "hfb")]

/-- `AcqType.get(name=n)` as used in the association loop (first matching
row, if any). -/
def acqTypeGet (tbl : List AcqTypeRow) (n : String) : Option AcqTypeRow :=
  tbl.find? fun r => r.name = n

/-- `FileType.get(name=n)` as used in the association loop. -/
def fileTypeGetOpt (tbl : List FileTypeRow) (n : String) : Option FileTypeRow :=
  tbl.find? fun r => r.name = n

/-- One step of the association loop of `update_types`: look up the
acqtype and filetype rows by name (`DoesNotExist` aborts the
transaction), delete every pairing of this acqtype with a different
filetype, then insert the canonical pairing if absent. -/
def assocFix (st : TypeDB) (pr : String × String) : Option TypeDB :=
  match acqTypeGet st.acqTypes pr.1, fileTypeGetOpt st.fileTypes pr.2 with
  | some a_t, some f_t =>
    let afterDel := st.acqFileTypes.filter fun p =>
      !(p.acq_type = a_t.id ∧ p.file_type ≠ f_t.id)
    let afterIns :=
      if afterDel.any fun p => p.acq_type = a_t.id ∧ p.file_type = f_t.id then afterDel
      else afterDel ++ [⟨a_t.id, f_t.id⟩]
    some { st with acqFileTypes := afterIns }
  | _, _ => none

/-- `update_types` from `util.py`: upsert the canonical acqtypes, upsert
the canonical filetypes, then fix the acqtype-to-filetype associations.
The routine runs under `@db.atomic(read_write=True)`: `none` models an
error, in which case the transaction rolls back and the tables are
unchanged. -/
def update_types (st : TypeDB) : Option TypeDB := do
  let a ← seedTable (fun r => r.name) (fun r => r.id) insertAcqTypeRow acqtypes st.acqTypes
  let f ← seedTable (fun r => r.name) (fun r => r.id) insertFileTypeRow filetypes st.fileTypes
  acqFileTypePairs.foldlM assocFix { st with acqTypes := a, fileTypes := f }

/-- The observable table state after a call to `update_types`: on error
the transaction rolls back, leaving the state unchanged. -/
def typesFinalState (st : TypeDB) : TypeDB :=
  (update_types st).getD st

/-- The empty starting state (fresh tables). -/
def emptyTypeDB : TypeDB := ⟨[], [], []⟩

-- Acquisition start/finish times (`ArchiveAcq.start_time` / `finish_time`)
-- =======================================================================

/-- The columns of a per-type file-info row used by the derived
`ArchiveAcq.start_time` / `finish_time` properties: the owning file and
the nullable `start_time` / `finish_time` doubles (modelled as exact
rationals; only order and equality with zero matter here). -/
structure TimedInfoRow where
  file : Nat
  start_time : Option ℚ
  finish_time : Option ℚ
deriving DecidableEq

/-- The ten per-type file-info tables, in the order of the
`file_info_table` list at the bottom of `orm.py`. -/
structure FileInfoDB where
  corrFileInfo : List TimedInfoRow
  hfbFileInfo : List TimedInfoRow
  hkFileInfo : List TimedInfoRow
  weatherFileInfo : List TimedInfoRow
  rawadcFileInfo : List TimedInfoRow
  hkpFileInfo : List TimedInfoRow
  digitalGainFileInfo : List TimedInfoRow
  calibrationGainFileInfo : List TimedInfoRow
  flagInputFileInfo : List TimedInfoRow
  miscFileInfo : List TimedInfoRow
deriving DecidableEq

/-- `file_info_table` from `orm.py`. -/
def file_info_table (db : FileInfoDB) : List (List TimedInfoRow) :=
  [db.corrFileInfo, db.hfbFileInfo, db.hkFileInfo, db.weatherFileInfo,
   db.rawadcFileInfo, db.hkpFileInfo, db.digitalGainFileInfo,
   db.calibrationGainFileInfo, db.flagInputFileInfo, db.miscFileInfo]

/-- SQL `Min(...)` aggregate over a nullable column: NULLs are ignored
and an empty aggregate is NULL (`.scalar()` returns `None`). -/
def sqlMinAgg (l : List (Option ℚ)) : Option ℚ :=
  (l.filterMap id).foldr
    (fun v acc => some (match acc with | none => v | some w => min v w)) none

/-- SQL `Max(...)` aggregate over a nullable column. -/
def sqlMaxAgg (l : List (Option ℚ)) : Option ℚ :=
  (l.filterMap id).foldr
    (fun v acc => some (match acc with | none => v | some w => max v w)) none

/-- Python's `x or d` on an optional float: `None` and `0.0` are both
falsy and yield the default. -/
def pyOrFloat (v : Option ℚ) (d : ℚ) : ℚ :=
  match v with
  | none => d
  | some x => if x = 0 then d else x

/-- The sentinel `1e99` used by `ArchiveAcq.start_time` /
`finish_time`. -/
def bigSentinel : ℚ := 10 ^ 99

/-- The info rows of table `tbl` joined against an acquisition's files
(`self.files.join(model)`). -/
def joinAcqFiles (files : List Nat) (tbl : List TimedInfoRow) : List TimedInfoRow :=
  tbl.filter fun r => r.file ∈ files

/-- `ArchiveAcq.start_time`: fold `min` over the per-table
`Min(start_time)` aggregates, starting from `1e99` and substituting
`1e99` for a falsy aggregate (`this_start or 1e99`). -/
def acq_start_time (db : FileInfoDB) (files : List Nat) : ℚ :=
  (file_info_table db).foldl
    (fun start tbl =>
      min start (pyOrFloat (sqlMinAgg ((joinAcqFiles files tbl).map
        fun r => r.start_time)) bigSentinel))
    bigSentinel

/-- `ArchiveAcq.finish_time`: fold `max` over the per-table
`Max(finish_time)` aggregates, starting from `-1e99`. -/
def acq_finish_time (db : FileInfoDB) (files : List Nat) : ℚ :=
  (file_info_table db).foldl
    (fun finish tbl =>
      max finish (pyOrFloat (sqlMaxAgg ((joinAcqFiles files tbl).map
        fun r => r.finish_time)) (-bigSentinel)))
    (-bigSentinel)

/-- Spec-side view: all (non-NULL) start times of per-type info records
linked to the acquisition's files. -/
def allStartTimes (db : FileInfoDB) (files : List Nat) : List ℚ :=
  ((file_info_table db).map fun tbl =>
    (joinAcqFiles files tbl).filterMap fun r => r.start_time).flatten

/-- Spec-side view: all (non-NULL) finish times of linked per-type info
records. -/
def allFinishTimes (db : FileInfoDB) (files : List Nat) : List ℚ :=
  ((file_info_table db).map fun tbl =>
    (joinAcqFiles files tbl).filterMap fun r => r.finish_time).flatten

-- Schema-level uniqueness constraints (`orm.py` table declarations)
-- =================================================================

/-- `StorageNode.storage_type ∈ {A, T, F}`. -/
inductive StorageType where
  | A | T | F
deriving DecidableEq

/-- `ArchiveFileCopy.has_file ∈ {N, Y, M, X}`. -/
inductive HasFileVal where
  | N | Y | M | X
deriving DecidableEq

/-- `ArchiveFileCopy.wants_file ∈ {Y, M, N}`. -/
inductive WantsFileVal where
  | Y | M | N
deriving DecidableEq

/-- A row of `ArchiveInst`: `name` is a plain `CharField`, with no
unique constraint in the declaration. -/
structure ArchiveInstRow where
  id : Nat
  name : String
  notes : Option String
deriving DecidableEq

/-- A row of `ArchiveAcq`: `name` is declared `unique=True`. -/
structure ArchiveAcqRow where
  id : Nat
  name : String
  inst : Option Nat
  type : Option Nat
  comment : Option String
deriving DecidableEq

/-- A row of `ArchiveFile`: `name` is a plain `CharField`; there is no
composite (acq, name) index in the declaration. -/
structure ArchiveFileRow where
  id : Nat
  acq : Nat
  type : Option Nat
  name : String
  size_b : Option Int
  md5sum : Option String
  registered : Nat
deriving DecidableEq

/-- A row of `StorageGroup`: `name` is declared `unique=True`. -/
structure StorageGroupRow where
  id : Nat
  name : String
  io_class : Option String
  notes : Option String
  io_config : Option String
deriving DecidableEq

/-- A row of `StorageNode`: `name` is declared `unique=True`. -/
structure StorageNodeRow where
  id : Nat
  name : String
  root : Option String
  host : Option String
  username : Option String
  address : Option String
  io_class : Option String
  group : Nat
  active : Bool
  auto_import : Bool
  auto_verify : Nat
  suspect : Option Bool
  storage_type : StorageType
  max_total_gb : Option ℚ
  min_avail_gb : ℚ
  avail_gb : Option ℚ
  avail_gb_last_checked : Option Nat
  min_delete_age_days : Option ℚ
  notes : Option String
  io_config : Option String
deriving DecidableEq

/-- A row of `ArchiveFileCopy`: `Meta.indexes` declares a unique index
on (file, node). -/
structure ArchiveFileCopyRow where
  id : Nat
  file : Nat
  node : Nat
  has_file : HasFileVal
  wants_file : WantsFileVal
  size_b : Int
  last_update : Nat
deriving DecidableEq

/-- A row of `ArchiveFileCopyRequest`: only the implicit auto-increment
`id` primary key is constrained — the class declares no composite key,
no `Meta.indexes`, and no unique field on (file, group_to, node_from). -/
structure ArchiveFileCopyRequestRow where
  id : Nat
  file : Nat
  group_to : Nat
  node_from : Nat
  nice : Option Int
  completed : Bool
  cancelled : Bool
  n_requests : Option Int
  timestamp : Nat
  transfer_started : Option Nat
  transfer_completed : Option Nat
deriving DecidableEq

/-- Insert into `ArchiveInst`: only the primary key is checked, because
the declaration carries no unique name constraint. -/
def insertArchiveInst (rec : ArchiveInstRow) (tbl : List ArchiveInstRow) :
    Option (List ArchiveInstRow) :=
  if tbl.any fun r => r.id = rec.id then none
  else some (tbl ++ [rec])

/-- Insert into `ArchiveAcq`: primary key and the unique `name`. -/
def insertArchiveAcq (rec : ArchiveAcqRow) (tbl : List ArchiveAcqRow) :
    Option (List ArchiveAcqRow) :=
  if (tbl.any fun r => r.id = rec.id) || (tbl.any fun r => r.name = rec.name) then none
  else some (tbl ++ [rec])

/-- Insert into `ArchiveFile`: only the primary key is checked — the
declaration constrains neither `name` nor (acq, name). -/
def insertArchiveFile (rec : ArchiveFileRow) (tbl : List ArchiveFileRow) :
    Option (List ArchiveFileRow) :=
  if tbl.any fun r => r.id = rec.id then none
  else some (tbl ++ [rec])

/-- Insert into `StorageGroup`: primary key and the unique `name`. -/
def insertStorageGroup (rec : StorageGroupRow) (tbl : List StorageGroupRow) :
    Option (List StorageGroupRow) :=
  if (tbl.any fun r => r.id = rec.id) || (tbl.any fun r => r.name = rec.name) then none
  else some (tbl ++ [rec])

/-- Insert into `StorageNode`: primary key and the unique `name`. -/
def insertStorageNode (rec : StorageNodeRow) (tbl : List StorageNodeRow) :
    Option (List StorageNodeRow) :=
  if (tbl.any fun r => r.id = rec.id) || (tbl.any fun r => r.name = rec.name) then none
  else some (tbl ++ [rec])

/-- Insert into `ArchiveFileCopy`: primary key plus the unique
(file, node) index from `Meta.indexes`. -/
def insertArchiveFileCopy (rec : ArchiveFileCopyRow) (tbl : List ArchiveFileCopyRow) :
    Option (List ArchiveFileCopyRow) :=
  if (tbl.any fun r => r.id = rec.id) ||
      (tbl.any fun r => r.file = rec.file ∧ r.node = rec.node) then none
  else some (tbl ++ [rec])

/-- Insert into `ArchiveFileCopyRequest`: only the primary key is
checked, because the declaration carries no constraint on the
(file, group_to, node_from) triple. -/
def insertArchiveFileCopyRequest (rec : ArchiveFileCopyRequestRow)
    (tbl : List ArchiveFileCopyRequestRow) : Option (List ArchiveFileCopyRequestRow) :=
  if tbl.any fun r => r.id = rec.id then none
  else some (tbl ++ [rec])

-- The `update_inst` seeding routine
-- =================================

/-- The 269-entry `inst` literal of `update_inst` in `util.py`. -/
def canonical_inst : List (Nat × String) :=
  [(1, "stone"), (2, "abbot"), (3, "blanchard"), (4, "ben"),
   (5, "first9ucrate"), (6, "first9ucreat"), (7, "slot15"), (8, "slot16"),
   (9, "slot12"), (10, "slot4"), (11, "slot11"), (12, "slot5"),
   (13, "slot7"), (14, "slot10"), (15, "slot8"), (16, "slot9"),
   (17, "slot13"), (18, "slot6"), (19, "slot14"), (20, "slot3"),
   (21, "pathfinder"), (22, "slot2"), (23, "slot1"), (24, "mingun"),
   (25, "chime"), (26, "cnBg8"), (27, "csCg9"), (28, "csCg8"),
   (29, "csCg7"), (30, "csCg6"), (31, "csCg5"), (32, "csCg4"),
   (33, "csCg3"), (34, "csCg2"), (35, "csCg1"), (36, "csCg0"),
   (37, "csBg1"), (38, "csBg0"), (39, "csAg9"), (40, "csAg8"),
   (41, "csAg7"), (42, "csAg5"), (43, "csAg4"), (44, "csAg3"),
   (45, "csAg2"), (46, "cs9g9"), (47, "cs9g8"), (48, "cs9g7"),
   (49, "cs9g6"), (50, "cs9g5"), (51, "cs9g4"), (52, "cs9g3"),
   (53, "cs9g2"), (54, "cs8g9"), (55, "cs8g8"), (56, "cs8g7"),
   (57, "cs8g1"), (58, "cs8g0"), (59, "cs5g8"), (60, "cs5g7"),
   (61, "cs5g6"), (62, "cs5g5"), (63, "cs5g4"), (64, "cs5g3"),
   (65, "cs5g2"), (66, "cs4g9"), (67, "cs4g8"), (68, "cs4g6"),
   (69, "cs3g9"), (70, "cs3g8"), (71, "cs3g7"), (72, "cs3g6"),
   (73, "cs3g5"), (74, "cs3g4"), (75, "cs3g3"), (76, "cs3g2"),
   (77, "cs3g0"), (78, "cs2g9"), (79, "cs2g8"), (80, "cs2g7"),
   (81, "cs2g6"), (82, "cs2g2"), (83, "cs2g1"), (84, "cs1g2"),
   (85, "cs1g1"), (86, "cs1g0"), (87, "cs0g5"), (88, "cs0g3"),
   (89, "cs0g2"), (90, "cs0g1"), (91, "cs0g0"), (92, "cnDg9"),
   (93, "cnDg8"), (94, "cnDg7"), (95, "cnDg6"), (96, "cnDg5"),
   (97, "cnDg3"), (98, "cnDg2"), (99, "cnBg9"), (100, "cnBg7"),
   (101, "cnBg6"), (102, "cnBg5"), (103, "cnBg4"), (104, "cnBg3"),
   (105, "cnBg2"), (106, "cnBg1"), (107, "cnBg0"), (108, "cnAg9"),
   (109, "cnAg8"), (110, "cnAg7"), (111, "cnAg6"), (112, "cnAg5"),
   (113, "cnAg4"), (114, "cnAg3"), (115, "cnAg2"), (116, "cnAg1"),
   (117, "cn9g9"), (118, "cn9g8"), (119, "cn9g7"), (120, "cn9g6"),
   (121, "cn9g5"), (122, "cn9g3"), (123, "cn9g2"), (124, "cn9g1"),
   (125, "cn9g0"), (126, "cn8g9"), (127, "cn8g1"), (128, "cn8g0"),
   (129, "cn6g9"), (130, "cn6g8"), (131, "cn6g7"), (132, "cn6g6"),
   (133, "cn6g5"), (134, "cn6g4"), (135, "cn6g3"), (136, "cn6g2"),
   (137, "cn6g1"), (138, "cn5g0"), (139, "cn4g9"), (140, "cn4g8"),
   (141, "cn4g7"), (142, "cn4g6"), (143, "cn4g5"), (144, "cn4g4"),
   (145, "cn4g3"), (146, "cn4g1"), (147, "cn4g0"), (148, "cn3g9"),
   (149, "cn3g8"), (150, "cn3g7"), (151, "cn3g6"), (152, "cn3g5"),
   (153, "cn3g4"), (154, "cn3g3"), (155, "cn3g2"), (156, "cn3g0"),
   (157, "cn2g9"), (158, "cn2g8"), (159, "cn2g6"), (160, "cn2g3"),
   (161, "cn2g1"), (162, "cn2g0"), (163, "cn1g9"), (164, "cn1g8"),
   (165, "cn1g7"), (166, "cn1g5"), (167, "cn1g4"), (168, "cn1g3"),
   (169, "cn1g2"), (170, "cn1g1"), (171, "cn0g9"), (172, "cn0g7"),
   (173, "cn0g6"), (174, "cn0g5"), (175, "cn0g4"), (176, "cn0g3"),
   (177, "cn0g2"), (178, "cn0g1"), (179, "cn0g0"), (180, "cs4g7"),
   (181, "cs2g5"), (182, "cs2g3"), (183, "cs2g0"), (184, "cs1g4"),
   (185, "cs1g3"), (186, "cn8g8"), (187, "cn8g7"), (188, "cn8g6"),
   (189, "cn6g0"), (190, "cn5g8"), (191, "cn5g7"), (192, "cn5g4"),
   (193, "cn5g3"), (194, "cn5g2"), (195, "cn5g1"), (196, "cn3g1"),
   (197, "cn2g5"), (198, "cn2g4"), (199, "cn2g2"), (200, "cn1g6"),
   (201, "cn1g0"), (202, "cn5g5"), (203, "cn5g6"), (204, "csDg3"),
   (205, "cs8g5"), (206, "cs8g2"), (207, "cs6g6"), (208, "cs4g3"),
   (209, "cs4g2"), (210, "cs9g0"), (211, "csBg5"), (212, "csBg3"),
   (213, "cnCg9"), (214, "cnCg4"), (215, "cnCg3"), (216, "cs8g3"),
   (217, "cs6g9"), (218, "cs6g7"), (219, "cs6g1"), (220, "cs4g5"),
   (221, "cs4g4"), (222, "cs4g1"), (223, "cs4g0"), (224, "cs2g4"),
   (225, "cs1g6"), (226, "cs0g6"), (227, "cs9g1"), (228, "cs5g0"),
   (229, "csBg4"), (230, "csBg2"), (231, "cnDg4"), (232, "cnCg8"),
   (233, "cnCg6"), (234, "cnCg5"), (235, "cnCg2"), (236, "cnCg0"),
   (237, "cnAg0"), (238, "cs8g4"), (239, "cs6g8"), (240, "cs6g5"),
   (241, "cs6g4"), (242, "cs6g3"), (243, "cs6g2"), (244, "cs6g0"),
   (245, "cs5g1"), (246, "cnCg1"), (247, "csBg9"), (248, "csBg8"),
   (249, "csBg7"), (250, "csBg6"), (251, "cn8g4"), (252, "cn8g3"),
   (253, "csDg4"), (254, "cn8g2"), (255, "cnCg7"), (256, "csAg0"),
   (257, "csAg1"), (258, "cn4g2"), (259, "csDg2"), (260, "chimecal"),
   (261, "chimepb"), (262, "chimeN2"), (263, "chimetiming"), (264, "chime26m"),
   (265, "chimestack"), (266, "chime26mgated"), (267, "chimedroneN2"), (268, "chimedronegatedN2"),
   (269, "chimedronecal")]

/-- The rows inserted by `update_inst`
(`fields=[ArchiveInst.id, ArchiveInst.name]`, so `notes` is NULL). -/
def canonicalInstRows : List ArchiveInstRow :=
  canonical_inst.map fun r => ⟨r.1, r.2, none⟩

/-- `update_inst` from `util.py`: one bulk
`ArchiveInst.insert_many(inst, fields=[id, name]).execute()` of all 269
canonical rows.  A single SQL statement is atomic: it fails as a whole
(duplicate primary key) or appends all rows. -/
def update_inst (tbl : List ArchiveInstRow) : Option (List ArchiveInstRow) :=
  if ((tbl ++ canonicalInstRows).map fun r => r.id).Nodup then
    some (tbl ++ canonicalInstRows)
  else none

-- `md5sum_file` content hashing
-- =============================

/-- Truncation to a 32-bit word. -/
def w32 (x : Nat) : Nat := x % 4294967296

/-- 32-bit left rotation (operands below `2^32`). -/
def rotl32 (x s : Nat) : Nat := w32 (x <<< s) ||| (x >>> (32 - s))

/-- 32-bit bitwise complement. -/
def bnot32 (x : Nat) : Nat := 4294967295 ^^^ x

/-- The MD5 per-round left-rotation amounts (RFC 1321). -/
def md5_s : List Nat :=
  [7, 12, 17, 22, 7, 12, 17, 22, 7, 12, 17, 22, 7, 12, 17, 22,
   5, 9, 14, 20, 5, 9, 14, 20, 5, 9, 14, 20, 5, 9, 14, 20,
   4, 11, 16, 23, 4, 11, 16, 23, 4, 11, 16, 23, 4, 11, 16, 23,
   6, 10, 15, 21, 6, 10, 15, 21, 6, 10, 15, 21, 6, 10, 15, 21]

/-- The MD5 sine-derived constants `K[i] = floor(2^32 * abs(sin(i+1)))`
(RFC 1321). -/
def md5_K : List Nat :=
  [0xd76aa478, 0xe8c7b756, 0x242070db, 0xc1bdceee,
   0xf57c0faf, 0x4787c62a, 0xa8304613, 0xfd469501,
   0x698098d8, 0x8b44f7af, 0xffff5bb1, 0x895cd7be,
   0x6b901122, 0xfd987193, 0xa679438e, 0x49b40821,
   0xf61e2562, 0xc040b340, 0x265e5a51, 0xe9b6c7aa,
   0xd62f105d, 0x02441453, 0xd8a1e681, 0xe7d3fbc8,
   0x21e1cde6, 0xc33707d6, 0xf4d50d87, 0x455a14ed,
   0xa9e3e905, 0xfcefa3f8, 0x676f02d9, 0x8d2a4c8a,
   0xfffa3942, 0x8771f681, 0x6d9d6122, 0xfde5380c,
   0xa4beea44, 0x4bdecfa9, 0xf6bb4b60, 0xbebfbc70,
   0x289b7ec6, 0xeaa127fa, 0xd4ef3085, 0x04881d05,
   0xd9d4d039, 0xe6db99e5, 0x1fa27cf8, 0xc4ac5665,
   0xf4292244, 0x432aff97, 0xab9423a7, 0xfc93a039,
   0x655b59c3, 0x8f0ccc92, 0xffeff47d, 0x85845dd1,
   0x6fa87e4f, 0xfe2ce6e0, 0xa3014314, 0x4e0811a1,
   0xf7537e82, 0xbd3af235, 0x2ad7d2bb, 0xeb86d391]

/-- Little-endian 32-bit word from four bytes. -/
def leWord (b0 b1 b2 b3 : Nat) : Nat :=
  b0 + 256 * b1 + 65536 * b2 + 16777216 * b3

/-- Split a 64-byte block into its sixteen little-endian words. -/
def toWords : List Nat → List Nat
  | b0 :: b1 :: b2 :: b3 :: rest => leWord b0 b1 b2 b3 :: toWords rest
  | _ => []

/-- One of the 64 MD5 rounds: the nonlinear function per 16-round
group. -/
def md5F (i b c d : Nat) : Nat :=
  if i < 16 then (b &&& c) ||| (bnot32 b &&& d)
  else if i < 32 then (d &&& b) ||| (bnot32 d &&& c)
  else if i < 48 then b ^^^ c ^^^ d
  else c ^^^ (b ||| bnot32 d)

/-- The message-word index per round. -/
def md5G (i : Nat) : Nat :=
  if i < 16 then i
  else if i < 32 then (5 * i + 1) % 16
  else if i < 48 then (3 * i + 5) % 16
  else (7 * i) % 16

/-- One MD5 round on the (a, b, c, d) state. -/
def md5Round (M : List Nat) (st : Nat × Nat × Nat × Nat) (i : Nat) :
    Nat × Nat × Nat × Nat :=
  let (a, b, c, d) := st
  let f := w32 (md5F i b c d + a + md5_K.getD i 0 + M.getD (md5G i) 0)
  (d, w32 (b + rotl32 f (md5_s.getD i 0)), b, c)

/-- The MD5 compression function on one 64-byte block. -/
def md5Compress (st : Nat × Nat × Nat × Nat) (block : List Nat) :
    Nat × Nat × Nat × Nat :=
  let M := toWords block
  let (a, b, c, d) := (List.range 64).foldl (md5Round M) st
  (w32 (st.1 + a), w32 (st.2.1 + b), w32 (st.2.2.1 + c), w32 (st.2.2.2 + d))

/-- The MD5 initial chaining value. -/
def md5Init : Nat × Nat × Nat × Nat :=
  (0x67452301, 0xefcdab89, 0x98badcfe, 0x10325476)

/-- The incremental-hashing state: chaining value, buffered bytes (fewer
than 64), total bytes absorbed. -/
def MD5Ctx : Type := (Nat × Nat × Nat × Nat) × List Nat × Nat

/-- A fresh `hashlib.md5()` object. -/
def md5InitCtx : MD5Ctx := (md5Init, [], 0)

/-- Absorb one byte: buffer it, compressing whenever the buffer reaches
64 bytes. -/
def md5AbsorbByte (st : MD5Ctx) (byte : Nat) : MD5Ctx :=
  let (h, buf, n) := st
  let buf' := buf ++ [byte]
  if buf'.length = 64 then (md5Compress h buf', [], n + 1) else (h, buf', n + 1)

/-- `md5.update(chunk)`. -/
def md5Update (st : MD5Ctx) (chunk : List Nat) : MD5Ctx :=
  chunk.foldl md5AbsorbByte st

/-- The eight little-endian bytes of the 64-bit message bit length. -/
def le64Bytes (n : Nat) : List Nat :=
  (List.range 8).map fun i => n / 256 ^ i % 256

/-- The four little-endian bytes of a 32-bit word. -/
def le32Bytes (x : Nat) : List Nat :=
  [x % 256, x / 256 % 256, x / 65536 % 256, x / 16777216 % 256]

/-- MD5 padding after `n` message bytes: `0x80`, zeros up to 56 mod 64,
then the bit length as eight little-endian bytes. -/
def md5Padding (n : Nat) : List Nat :=
  0x80 :: List.replicate ((119 - n % 64) % 64) 0 ++
    le64Bytes (8 * n % 18446744073709551616)

/-- `md5.digest()`: absorb the padding and serialise the chaining value
little-endian (16 bytes). -/
def md5Finalize (st : MD5Ctx) : List Nat :=
  let h := (md5Update st (md5Padding st.2.2)).1
  le32Bytes h.1 ++ le32Bytes h.2.1 ++ le32Bytes h.2.2.1 ++ le32Bytes h.2.2.2

/-- Split a byte stream into 64-byte blocks plus a final partial
remainder, accumulating into `acc`. -/
def splitBlocksAux (acc : List Nat) : List Nat → List (List Nat) × List Nat
  | [] => ([], acc)
  | b :: rest =>
    let acc' := acc ++ [b]
    if acc'.length = 64 then
      let (bs, rem) := splitBlocksAux [] rest
      (acc' :: bs, rem)
    else splitBlocksAux acc' rest

/-- Reference MD5 (RFC 1321), written from the spec's words ("a 128-bit
digest identical to the standard MD5 algorithm"): pad the whole message,
split it into 64-byte blocks, fold the compression function, serialise
little-endian. -/
def md5_spec (msg : List Nat) : List Nat :=
  let h := ((splitBlocksAux [] (msg ++ md5Padding msg.length)).1).foldl
    md5Compress md5Init
  le32Bytes h.1 ++ le32Bytes h.2.1 ++ le32Bytes h.2.2.1 ++ le32Bytes h.2.2.2

/-- Split a stream into chunks of `k` bytes (final chunk possibly
short), as produced by `iter(lambda: f.read(block_size), b"")`. -/
def chunksOfAux (k : Nat) (acc : List Nat) : List Nat → List (List Nat)
  | [] => if acc.isEmpty then [] else [acc]
  | b :: rest =>
    let acc' := acc ++ [b]
    if acc'.length = k then acc' :: chunksOfAux k [] rest
    else chunksOfAux k acc' rest

/-- All successive `f.read(block_size)` chunks of a file's contents. -/
def chunksOf (k : Nat) (l : List Nat) : List (List Nat) := chunksOfAux k [] l

/-- The `block_size = 256 * 128` constant of `md5sum_file`. -/
def md5_block_size : Nat := 256 * 128

/-- Lowercase hex digit. -/
def hexDigit (n : Nat) : Char := "0123456789abcdef".toList.getD n '0'

/-- Lowercase hex string of a byte list (`hexdigest`). -/
def hexOfBytes (bs : List Nat) : List Char :=
  bs.flatMap fun b => [hexDigit (b / 16), hexDigit (b % 16)]

/-- `md5sum_file` from `util.py` (the `cmd_line=False` path): stream the
file contents in `block_size`-byte reads, feed each chunk to the running
md5 object, then return `hexdigest()` as a string when `hr` is true and
the raw 16 `digest()` bytes when `hr` is false. -/
def md5sum_file (content : List Nat) (hr : Bool) : String ⊕ List Nat :=
  let digest := md5Finalize
    ((chunksOf md5_block_size content).foldl md5Update md5InitCtx)
  if hr then Sum.inl (String.mk (hexOfBytes digest)) else Sum.inr digest

-- Verification predicates
-- =======================

/-- After an upsert for canonical record `rec`, every row sharing its
name equals `rec`, and such a row exists. -/
def NameDone {α : Type} (nm : α → String) (rec : α) (tbl : List α) : Prop :=
  (∀ r ∈ tbl, nm r = nm rec → r = rec) ∧ ∃ r ∈ tbl, nm r = nm rec

/-- After the association fix for an (acqtype id, filetype id) pair,
every junction row of that acqtype points at that filetype, and the
canonical pairing is present. -/
def AssocDone (aid fid : Nat) (assoc : List AcqFileTypesRow) : Prop :=
  (∀ p ∈ assoc, p.acq_type = aid → p.file_type = fid) ∧
  ∃ p ∈ assoc, p.acq_type = aid ∧ p.file_type = fid

/-- The canonical `AcqType` record of a given name. -/
def canonAcq (n : String) : Option AcqTypeRow :=
  acqtypes.find? fun r => r.name = n

/-- The canonical `FileType` record of a given name. -/
def canonFt (n : String) : Option FileTypeRow :=
  filetypes.find? fun r => r.name = n

/-- The fixed id of the canonical `AcqType` of a given name. -/
def canonAcqId (n : String) : Nat :=
  ((canonAcq n).map fun r => r.id).getD 0

/-- The fixed id of the canonical `FileType` of a given name. -/
def canonFtId (n : String) : Nat :=
  ((canonFt n).map fun r => r.id).getD 0

/-- The junction rows produced by `update_types` on empty tables. -/
def canonicalAssocRows : List AcqFileTypesRow :=
  [⟨1, 1⟩, ⟨3, 5⟩, ⟨5, 10⟩, ⟨7, 12⟩, ⟨8, 12⟩, ⟨9, 12⟩, ⟨11, 14⟩]

/-- The full table state produced by `update_types` on empty tables. -/
def canonicalTypeDB : TypeDB := ⟨acqtypes, filetypes, canonicalAssocRows⟩

-- Helper lemmas: regular-expression soundness
-- ===========================================

theorem matches_comp_intro {P Q : RegularExpression Char} {x y : List Char}
    (hx : x ∈ P.matches') (hy : y ∈ Q.matches') :
    x ++ y ∈ (RegularExpression.comp P Q).matches' := by
  rw [RegularExpression.comp_def, matches'_mul]
  exact Language.append_mem_mul hx hy

theorem matches_char_self (c : Char) :
    [c] ∈ (RegularExpression.char c).matches' := by
  rw [matches'_char]
  rfl

theorem reClass_matches_of_mem {cs : List Char} {c : Char} (h : c ∈ cs) :
    [c] ∈ (reClass cs).matches' := by
  induction cs with
  | nil => cases h
  | cons c' cs ih =>
    simp only [reClass, List.foldr_cons] at ih ⊢
    rw [RegularExpression.plus_def, matches'_add, Language.mem_add]
    rcases List.mem_cons.mp h with h | h
    · exact Or.inl (h ▸ matches_char_self c')
    · exact Or.inr (ih h)

theorem reStr_matches_self (s : List Char) : s ∈ (reStr s).matches' := by
  induction s with
  | nil =>
    simp only [reStr, List.foldr_nil]
    rw [RegularExpression.one_def, matches'_epsilon]
    exact Language.nil_mem_one
  | cons c s ih =>
    simp only [reStr, List.foldr_cons] at ih ⊢
    exact matches_comp_intro (matches_char_self c) ih

theorem reRep_matches {cs : List Char} :
    ∀ (n : Nat) (l : List Char), l.length = n → (∀ c ∈ l, c ∈ cs) →
      l ∈ (reRep (reClass cs) n).matches'
  | 0, l, hl, _ => by
    rw [List.length_eq_zero] at hl
    subst hl
    simp only [reRep]
    rw [RegularExpression.one_def, matches'_epsilon]
    exact Language.nil_mem_one
  | n + 1, l, hl, hmem => by
    cases l with
    | nil => simp at hl
    | cons c rest =>
      simp only [List.length_cons, Nat.succ.injEq] at hl
      simp only [reRep]
      exact matches_comp_intro
        (reClass_matches_of_mem (hmem c (List.mem_cons_self c rest)))
        (reRep_matches n rest hl fun x hx => hmem x (List.mem_cons_of_mem c hx))

theorem flatten_map_singleton (l : List Char) :
    (l.map fun c => [c]).flatten = l := by
  induction l with
  | nil => rfl
  | cons c l ih => simp [ih]

theorem star_class_matches {cs l : List Char} (h : ∀ c ∈ l, c ∈ cs) :
    l ∈ (RegularExpression.star (reClass cs)).matches' := by
  rw [matches'_star]
  rw [← flatten_map_singleton l]
  apply Language.join_mem_kstar
  intro y hy
  rcases List.mem_map.mp hy with ⟨c, hc, rfl⟩
  exact reClass_matches_of_mem (h c hc)

theorem re_match_of_matches {r : RegularExpression Char} {x : List Char}
    (h : x ∈ r.matches') : re_match r x = true := by
  unfold re_match
  rw [List.any_eq_true]
  refine ⟨x, ?_, (rmatch_iff_matches' r x).mpr h⟩
  rw [List.mem_inits]

-- Helper lemmas: Python `split("_")`
-- ==================================

theorem pySplitU_cons (c : Char) (l : List Char) :
    pySplitU (c :: l) =
      if c = '_' then [] :: pySplitU l
      else
        match pySplitU l with
        | [] => [[c]]
        | h :: t => (c :: h) :: t := rfl

theorem pySplitU_no_uscore {l : List Char} (h : '_' ∉ l) : pySplitU l = [l] := by
  induction l with
  | nil => rfl
  | cons c l ih =>
    rw [pySplitU_cons]
    rw [if_neg fun hc => h (List.mem_cons.mpr (Or.inl hc.symm))]
    rw [ih fun hm => h (List.mem_cons_of_mem c hm)]

theorem pySplitU_append_uscore {a : List Char} (rest : List Char)
    (h : '_' ∉ a) : pySplitU (a ++ '_' :: rest) = a :: pySplitU rest := by
  induction a with
  | nil =>
    simp only [List.nil_append]
    rw [pySplitU_cons, if_pos rfl]
  | cons c a ih =>
    simp only [List.cons_append]
    rw [pySplitU_cons]
    rw [if_neg fun hc => h (List.mem_cons.mpr (Or.inl hc.symm))]
    rw [ih fun hm => h (List.mem_cons_of_mem c hm)]

-- C4: acquisition-name parsing
-- ============================

/-- C4 (amended): every string of the grammar
`<8-digit-date>T<6-digit-time>Z_<alphanumeric-token>_<alphabetic-token>`
is parsed into exactly its three underscore-delimited tokens.  The
failure direction is weaker than claimed: a string with no
grammar-matching prefix, or one that does not split into exactly three
underscore-separated pieces, raises `ValidationError` carrying the
offending name — but because `re.match` is anchored only at the start, a
string that merely begins with a grammar match can also be accepted (see
the counterexample). -/
theorem parse_acq_name_spec :
    (∀ d t i y : List Char,
      d.length = 8 → (∀ c ∈ d, c ∈ "0123456789".toList) →
      t.length = 6 → (∀ c ∈ t, c ∈ "0123456789".toList) →
      (∀ c ∈ i, c ∈
        "ABCDEFGHIJKLMNOPQRSTUVWXYZabcdefghijklmnopqrstuvwxyz0123456789".toList) →
      (∀ c ∈ y, c ∈ "ABCDEFGHIJKLMNOPQRSTUVWXYZabcdefghijklmnopqrstuvwxyz".toList) →
      parse_acq_name (d ++ ('T' :: (t ++ ('Z' :: '_' :: (i ++ ('_' :: y)))))) =
        Except.ok (d ++ ('T' :: (t ++ ['Z'])), i, y)) ∧
    (∀ name, re_match fmt_acq name = false →
      parse_acq_name name = Except.error ⟨name⟩) ∧
    (∀ name, (pySplitU name).length ≠ 3 →
      parse_acq_name name = Except.error ⟨name⟩) := by
  refine ⟨?_, ?_, ?_⟩
  · intro d t i y hd hdm ht htm him hym
    have hs : (d ++ ('T' :: (t ++ ('Z' :: '_' :: (i ++ ('_' :: y)))))) ∈
        fmt_acq.matches' :=
      matches_comp_intro (reRep_matches 8 d hd hdm)
        (matches_comp_intro (matches_char_self 'T')
          (matches_comp_intro (reRep_matches 6 t ht htm)
            (matches_comp_intro (matches_char_self 'Z')
              (matches_comp_intro (matches_char_self '_')
                (matches_comp_intro (star_class_matches him)
                  (matches_comp_intro (matches_char_self '_')
                    (star_class_matches hym)))))))
    have hm : re_match fmt_acq
        (d ++ ('T' :: (t ++ ('Z' :: '_' :: (i ++ ('_' :: y)))))) = true :=
      re_match_of_matches hs
    have hdig : ('_' : Char) ∉ "0123456789".toList := by decide
    have hA : '_' ∉ (d ++ ('T' :: (t ++ ['Z']))) := by
      intro hmem
      rcases List.mem_append.mp hmem with hmem | hmem
      · exact hdig (hdm '_' hmem)
      · rcases List.mem_cons.mp hmem with hmem | hmem
        · exact absurd hmem (by decide)
        · rcases List.mem_append.mp hmem with hmem | hmem
          · exact hdig (htm '_' hmem)
          · exact absurd (List.mem_singleton.mp hmem) (by decide)
    have hI : '_' ∉ i := by
      intro hmem
      exact absurd (him '_' hmem) (by decide)
    have hY : '_' ∉ y := by
      intro hmem
      exact absurd (hym '_' hmem) (by decide)
    have h2 : d ++ ('T' :: (t ++ ('Z' :: '_' :: (i ++ ('_' :: y))))) =
        (d ++ ('T' :: (t ++ ['Z']))) ++ '_' :: (i ++ '_' :: y) := by
      simp [List.append_assoc]
    have hsplit : pySplitU (d ++ ('T' :: (t ++ ('Z' :: '_' :: (i ++ ('_' :: y)))))) =
        [d ++ ('T' :: (t ++ ['Z'])), i, y] := by
      rw [h2, pySplitU_append_uscore _ hA, pySplitU_append_uscore _ hI,
        pySplitU_no_uscore hY]
    simp [parse_acq_name, hm, hsplit]
  · intro name hm
    simp [parse_acq_name, hm]
  · intro name h
    unfold parse_acq_name
    cases hm : re_match fmt_acq name with
    | false => simp
    | true =>
      simp only [Bool.true_eq_false, if_false]
      split
      · next a b c heq => exact absurd (by rw [heq] ; rfl) h
      · rfl

/-- Witness for C4: a concrete grammar-conforming name parses into its
three tokens. -/
theorem parse_acq_name_spec_witness :
    parse_acq_name ("20230101".toList ++ ('T' :: ("000000".toList ++
        ('Z' :: '_' :: ("chime".toList ++ ('_' :: "corr".toList)))))) =
      Except.ok ("20230101".toList ++ ('T' :: ("000000".toList ++ ['Z'])),
        "chime".toList, "corr".toList) :=
  parse_acq_name_spec.1 "20230101".toList "000000".toList "chime".toList
    "corr".toList (by decide) (by decide) (by decide) (by decide)
    (by decide) (by decide)

/-- Counterexample for C4 as stated: `"20230101T000000Z_i_ab123"` does
not match the acquisition-name grammar (its type token `ab123` is not
purely alphabetic), yet `parse_acq_name` accepts it instead of raising
`ValidationError`, because `re.match` is anchored only at position 0. -/
theorem parse_acq_name_counterexample :
    re_fullmatch fmt_acq "20230101T000000Z_i_ab123".toList = false ∧
    parse_acq_name "20230101T000000Z_i_ab123".toList =
      Except.ok ("20230101T000000Z".toList, "i".toList, "ab123".toList) :=
  ⟨by decide, by rfl⟩

-- C5 / C10: type-detection order and missing reference data
-- ==========================================================

theorem detect_eq_first (db : List FileTypeRow) (name : List Char) :
    detect_file_type db name =
      (match firstTypeMatch name with
      | some t => (fileTypeGet db t).map some
      | none => Except.ok none) := by
  unfold detect_file_type firstTypeMatch specTypeOrder
  cases h1 : re_match fmt_corr name with
  | true => simp [List.find?, h1]
  | false =>
    cases h2 : re_match fmt_hfb name with
    | true => simp [List.find?, h1, h2]
    | false =>
      cases h3 : re_match fmt_hk name with
      | true => simp [List.find?, h1, h2, h3]
      | false =>
        cases h4 : re_match fmt_hkp name with
        | true => simp [List.find?, h1, h2, h3, h4]
        | false =>
          cases h5 : re_match fmt_log name with
          | true => simp [List.find?, h1, h2, h3, h4, h5]
          | false =>
            cases h6 : re_match fmt_atmel name with
            | true => simp [List.find?, h1, h2, h3, h4, h5, h6]
            | false =>
              cases h7 : re_match fmt_rawadc name || re_match fmt_rawadc_h5 name with
              | true => simp [List.find?, h1, h2, h3, h4, h5, h6, h7]
              | false =>
                cases h8 : re_match fmt_rawadc_hist name || re_match fmt_rawadc_spec name with
                | true => simp [List.find?, h1, h2, h3, h4, h5, h6, h7, h8]
                | false =>
                  cases h9 : re_match fmt_raw_gains name with
                  | true => simp [List.find?, h1, h2, h3, h4, h5, h6, h7, h8, h9]
                  | false =>
                    cases h10 : re_match fmt_weather name with
                    | true => simp [List.find?, h1, h2, h3, h4, h5, h6, h7, h8, h9, h10]
                    | false =>
                      cases h11 : re_match fmt_calib_data name with
                      | true => simp [List.find?, h1, h2, h3, h4, h5, h6, h7, h8, h9, h10, h11]
                      | false =>
                        cases h12 : re_match fmt_misc_tar name with
                        | true => simp [List.find?, h1, h2, h3, h4, h5, h6, h7, h8, h9, h10, h11, h12]
                        | false =>
                          simp [List.find?, h1, h2, h3, h4, h5, h6, h7, h8, h9, h10, h11, h12]

/-- C5: `detect_file_type` tests the registered patterns in the fixed
priority order of `specTypeOrder` and returns the type of the first
matching pattern (fetching its `FileType` row); an unmatched filename
yields the absent value `None`, not an error.  In particular
`"20230101_0000.h5"` classifies as the correlator type,
`"hfb_20230101_0000.h5"` as the HFB type, and `"garbage.xyz"` as no
match. -/
theorem detect_file_type_priority :
    (∀ (db : List FileTypeRow) (name : List Char),
      detect_file_type db name =
        (match firstTypeMatch name with
        | some t => (fileTypeGet db t).map some
        | none => Except.ok none)) ∧
    firstTypeMatch "20230101_0000.h5".toList = some "corr" ∧
    firstTypeMatch "hfb_20230101_0000.h5".toList = some "hfb" ∧
    firstTypeMatch "garbage.xyz".toList = none ∧
    (detect_file_type filetypes "20230101_0000.h5".toList).map
      (Option.map fun r => r.name) = Except.ok (some "corr") ∧
    (detect_file_type filetypes "hfb_20230101_0000.h5".toList).map
      (Option.map fun r => r.name) = Except.ok (some "hfb") ∧
    ∀ db : List FileTypeRow,
      detect_file_type db "garbage.xyz".toList = Except.ok none := by
  refine ⟨detect_eq_first, by decide, by decide, by decide, by rfl, by rfl, ?_⟩
  intro db
  rw [detect_eq_first db "garbage.xyz".toList]
  rw [show firstTypeMatch "garbage.xyz".toList = none from by decide]

/-- C10: if a filename matches one of the registered patterns but the
database holds no `FileType` row of the corresponding name (the
reference data was never seeded), `detect_file_type` raises the
`DoesNotExist` lookup error rather than returning `None`. -/
theorem detect_file_type_missing_row (db : List FileTypeRow)
    (name : List Char) (t : String)
    (h1 : firstTypeMatch name = some t)
    (h2 : ∀ r ∈ db, r.name ≠ t) :
    detect_file_type db name = Except.error GetError.doesNotExist := by
  rw [detect_eq_first, h1]
  have hfind : db.find? (fun r => r.name = t) = none := by
    rw [List.find?_eq_none]
    intro r hr
    simpa using h2 r hr
  show (fileTypeGet db t).map some = _
  unfold fileTypeGet
  rw [hfind]
  rfl

/-- Witness for C10: on an empty `FileType` table, a correlator-shaped
filename raises `DoesNotExist`. -/
theorem detect_file_type_missing_row_witness :
    detect_file_type [] "20230101_0000.h5".toList =
      Except.error GetError.doesNotExist :=
  detect_file_type_missing_row [] "20230101_0000.h5".toList "corr"
    (by decide) (by intro r hr; cases hr)

-- C1: no uniqueness on the copy-request triple
-- ============================================

/-- Counterexample for C1 as stated: a second `ArchiveFileCopyRequest`
with the same (file, group_to, node_from) triple, while the first is
pending (not completed, not cancelled), inserts without any
constraint-violation error, creating a duplicate row. -/
theorem copy_request_duplicate_counterexample :
    insertArchiveFileCopyRequest
      ⟨2, 10, 20, 30, none, false, false, none, 5, none, none⟩
      [⟨1, 10, 20, 30, none, false, false, none, 0, none, none⟩] =
    some [⟨1, 10, 20, 30, none, false, false, none, 0, none, none⟩,
          ⟨2, 10, 20, 30, none, false, false, none, 5, none, none⟩] := by decide

/-- C1 (amended): `ArchiveFileCopyRequest` declares no composite primary
key and no unique index, so only the surrogate id is constrained: any
request row with a fresh id inserts successfully, even an exact
(file, group_to, node_from) duplicate of a pending request.  The only
composite uniqueness in the schema is `ArchiveFileCopy`'s unique
(file, node) index, whose violation does fail. -/
theorem copy_request_no_unique_triple :
    (∀ (tbl : List ArchiveFileCopyRequestRow) (rec : ArchiveFileCopyRequestRow),
      (∀ r ∈ tbl, r.id ≠ rec.id) →
      insertArchiveFileCopyRequest rec tbl = some (tbl ++ [rec])) ∧
    (∀ (tbl : List ArchiveFileCopyRow) (rec r : ArchiveFileCopyRow),
      r ∈ tbl → r.file = rec.file → r.node = rec.node →
      insertArchiveFileCopy rec tbl = none) := by
  constructor
  · intro tbl rec h
    unfold insertArchiveFileCopyRequest
    have hany : (tbl.any fun r => r.id = rec.id) = false := by
      rw [List.any_eq_false]
      intro r hr
      simpa using h r hr
    rw [hany]
    rfl
  · intro tbl rec r hr hf hn
    unfold insertArchiveFileCopy
    have hany : (tbl.any fun q => q.file = rec.file ∧ q.node = rec.node) = true := by
      rw [List.any_eq_true]
      exact ⟨r, hr, by simp [hf, hn]⟩
    rw [hany]
    simp

/-- Witness for C1: concrete duplicate-triple insert succeeding and a
concrete duplicate (file, node) copy insert failing. -/
theorem copy_request_no_unique_triple_witness :
    insertArchiveFileCopyRequest
      ⟨2, 10, 20, 30, none, true, false, none, 5, none, none⟩
      [⟨1, 10, 20, 30, none, false, false, none, 0, none, none⟩] =
    some [⟨1, 10, 20, 30, none, false, false, none, 0, none, none⟩,
          ⟨2, 10, 20, 30, none, true, false, none, 5, none, none⟩] ∧
    insertArchiveFileCopy ⟨2, 10, 20, HasFileVal.Y, WantsFileVal.Y, 0, 0⟩
      [⟨1, 10, 20, HasFileVal.N, WantsFileVal.Y, 0, 0⟩] = none :=
  ⟨copy_request_no_unique_triple.1 _ _ (by decide),
   copy_request_no_unique_triple.2 _ _
     ⟨1, 10, 20, HasFileVal.N, WantsFileVal.Y, 0, 0⟩
     (by decide) rfl rfl⟩

-- C2: which name-uniqueness constraints the schema declares
-- =========================================================

/-- Counterexample for C2 as stated: `ArchiveInst.name` carries no
unique constraint, so inserting a second instrument with an existing
name succeeds instead of failing with a constraint violation. -/
theorem name_uniqueness_counterexample :
    insertArchiveInst ⟨2, "stone", none⟩ [⟨1, "stone", none⟩] =
      some [⟨1, "stone", none⟩, ⟨2, "stone", none⟩] := by decide

/-- C2 (amended): of the claimed name-uniqueness invariants the schema
enforces only these: `ArchiveAcq.name`, `StorageGroup.name` and
`StorageNode.name` are unique (a duplicate insert violates a
constraint).  `ArchiveInst.name` and `FileType.name` carry no unique
constraint, and `ArchiveFile` has no (acq, name) index, so those
duplicate inserts succeed whenever the primary key is fresh. -/
theorem name_uniqueness_declared :
    (∀ (tbl : List ArchiveAcqRow) (rec r : ArchiveAcqRow),
      r ∈ tbl → r.name = rec.name → insertArchiveAcq rec tbl = none) ∧
    (∀ (tbl : List StorageGroupRow) (rec r : StorageGroupRow),
      r ∈ tbl → r.name = rec.name → insertStorageGroup rec tbl = none) ∧
    (∀ (tbl : List StorageNodeRow) (rec r : StorageNodeRow),
      r ∈ tbl → r.name = rec.name → insertStorageNode rec tbl = none) ∧
    (∀ (tbl : List ArchiveInstRow) (rec : ArchiveInstRow),
      (∀ r ∈ tbl, r.id ≠ rec.id) →
      insertArchiveInst rec tbl = some (tbl ++ [rec])) ∧
    (∀ (tbl : List FileTypeRow) (rec : FileTypeRow),
      (∀ r ∈ tbl, r.id ≠ rec.id) →
      insertFileTypeRow rec tbl = some (tbl ++ [rec])) ∧
    (∀ (tbl : List ArchiveFileRow) (rec : ArchiveFileRow),
      (∀ r ∈ tbl, r.id ≠ rec.id) →
      insertArchiveFile rec tbl = some (tbl ++ [rec])) := by
  refine ⟨?_, ?_, ?_, ?_, ?_, ?_⟩
  · intro tbl rec r hr hname
    unfold insertArchiveAcq
    have hany : (tbl.any fun q => q.name = rec.name) = true :=
      List.any_eq_true.mpr ⟨r, hr, by simp [hname]⟩
    rw [hany]
    simp
  · intro tbl rec r hr hname
    unfold insertStorageGroup
    have hany : (tbl.any fun q => q.name = rec.name) = true :=
      List.any_eq_true.mpr ⟨r, hr, by simp [hname]⟩
    rw [hany]
    simp
  · intro tbl rec r hr hname
    unfold insertStorageNode
    have hany : (tbl.any fun q => q.name = rec.name) = true :=
      List.any_eq_true.mpr ⟨r, hr, by simp [hname]⟩
    rw [hany]
    simp
  · intro tbl rec h
    unfold insertArchiveInst
    have hany : (tbl.any fun r => r.id = rec.id) = false := by
      rw [List.any_eq_false]
      intro r hr
      simpa using h r hr
    rw [hany]
    rfl
  · intro tbl rec h
    unfold insertFileTypeRow
    have hany : (tbl.any fun r => r.id = rec.id) = false := by
      rw [List.any_eq_false]
      intro r hr
      simpa using h r hr
    rw [hany]
    rfl
  · intro tbl rec h
    unfold insertArchiveFile
    have hany : (tbl.any fun r => r.id = rec.id) = false := by
      rw [List.any_eq_false]
      intro r hr
      simpa using h r hr
    rw [hany]
    rfl

/-- Witness for C2: a duplicate acquisition name fails; duplicate
instrument and file-type names, and a duplicate file name inside one
acquisition, all succeed. -/
theorem name_uniqueness_declared_witness :
    insertArchiveAcq ⟨2, "20230101T000000Z_chime_corr", none, none, none⟩
      [⟨1, "20230101T000000Z_chime_corr", none, none, none⟩] = none ∧
    insertArchiveInst ⟨2, "chime", none⟩ [⟨1, "chime", none⟩] =
      some [⟨1, "chime", none⟩, ⟨2, "chime", none⟩] ∧
    insertFileTypeRow ⟨2, "corr", none, none, none⟩ [⟨1, "corr", none, none, none⟩] =
      some [⟨1, "corr", none, none, none⟩, ⟨2, "corr", none, none, none⟩] ∧
    insertArchiveFile ⟨2, 7, none, "00000000_0000.h5", none, none, 0⟩
      [⟨1, 7, none, "00000000_0000.h5", none, none, 0⟩] =
      some [⟨1, 7, none, "00000000_0000.h5", none, none, 0⟩,
            ⟨2, 7, none, "00000000_0000.h5", none, none, 0⟩] :=
  ⟨name_uniqueness_declared.1 _ _ ⟨1, "20230101T000000Z_chime_corr", none, none, none⟩
      (by decide) rfl,
   name_uniqueness_declared.2.2.2.1 _ _ (by decide),
   name_uniqueness_declared.2.2.2.2.1 _ _ (by decide),
   name_uniqueness_declared.2.2.2.2.2 _ _ (by decide)⟩

-- C3: `update_inst` is a bulk insert, not an upsert
-- =================================================

/-- Counterexample for C3 as stated: with a row named `"stone"` already
present (under a different id), `update_inst` does not update it — it
bulk-inserts all canonical rows, leaving the old row untouched and
creating a second `"stone"` row; and running `update_inst` on tables
already holding the canonical rows fails with a duplicate-key
constraint violation instead of being idempotent. -/
theorem update_inst_counterexample :
    update_inst [⟨500, "stone", none⟩] =
      some ([⟨500, "stone", none⟩] ++ canonicalInstRows) ∧
    update_inst canonicalInstRows = none := by
  constructor
  · decide
  · decide

/-- C3 (amended): `update_inst` has plain bulk-insert semantics, not
upsert semantics: whenever every canonical id is fresh it appends all
269 canonical rows (never updating an existing row, even one whose name
matches a canonical record), and whenever any canonical id is already
present — in particular on any second run — the insert fails with a
duplicate-key constraint violation, so a successful run is not
repeatable. -/
theorem update_inst_bulk_insert :
    (∀ tbl : List ArchiveInstRow,
      ((tbl ++ canonicalInstRows).map fun r => r.id).Nodup →
      update_inst tbl = some (tbl ++ canonicalInstRows)) ∧
    (∀ tbl : List ArchiveInstRow, (∃ r ∈ tbl, r.id = 1) →
      update_inst tbl = none) := by
  constructor
  · intro tbl h
    unfold update_inst
    rw [if_pos h]
  · rintro tbl ⟨r, hr, hid⟩
    unfold update_inst
    rw [if_neg]
    intro hnd
    rw [List.map_append, List.nodup_append] at hnd
    exact hnd.2.2 (List.mem_map.mpr ⟨r, hr, hid⟩)
      (show (1 : Nat) ∈ canonicalInstRows.map (fun r => r.id) from by decide)

/-- Witness for C3: from empty tables the bulk insert succeeds; rerun on
the result fails. -/
theorem update_inst_bulk_insert_witness :
    update_inst [] = some canonicalInstRows ∧
    update_inst canonicalInstRows = none :=
  ⟨update_inst_bulk_insert.1 [] (by decide),
   update_inst_bulk_insert.2 canonicalInstRows ⟨⟨1, "stone", none⟩, by decide, rfl⟩⟩

-- C8: derived acquisition start/finish times
-- ==========================================

theorem minAgg_foldl (vals : List ℚ) (m : ℚ)
    (h : vals.foldr
      (fun v acc => some (match acc with | none => v | some w => min v w)) none =
        some m) :
    ∀ acc : ℚ, vals.foldl min acc = min acc m := by
  induction vals generalizing m with
  | nil => cases h
  | cons v vs ih =>
    simp only [List.foldr_cons] at h
    cases hgo : vs.foldr
        (fun v acc => some (match acc with | none => v | some w => min v w)) none with
    | none =>
      cases vs with
      | nil =>
        simp only [List.foldr_nil] at h
        cases h
        intro acc
        rfl
      | cons v' vs' =>
        simp only [List.foldr_cons] at hgo
        exact Option.noConfusion hgo
    | some w =>
      rw [hgo] at h
      injection h with h
      subst h
      intro acc
      show List.foldl min acc (v :: vs) = min acc (min v w)
      rw [List.foldl_cons, ih w hgo (min acc v), min_assoc]

theorem minAgg_mem (vals : List ℚ) (m : ℚ)
    (h : vals.foldr
      (fun v acc => some (match acc with | none => v | some w => min v w)) none =
        some m) :
    m ∈ vals := by
  induction vals generalizing m with
  | nil => cases h
  | cons v vs ih =>
    simp only [List.foldr_cons] at h
    cases hgo : vs.foldr
        (fun v acc => some (match acc with | none => v | some w => min v w)) none with
    | none =>
      rw [hgo] at h
      cases h
      exact List.mem_cons_self v vs
    | some w =>
      rw [hgo] at h
      injection h with h
      subst h
      show min v w ∈ v :: vs
      rcases min_choice v w with hc | hc
      · rw [hc]; exact List.mem_cons_self v vs
      · rw [hc]; exact List.mem_cons_of_mem v (ih w hgo)

theorem maxAgg_foldl (vals : List ℚ) (m : ℚ)
    (h : vals.foldr
      (fun v acc => some (match acc with | none => v | some w => max v w)) none =
        some m) :
    ∀ acc : ℚ, vals.foldl max acc = max acc m := by
  induction vals generalizing m with
  | nil => cases h
  | cons v vs ih =>
    simp only [List.foldr_cons] at h
    cases hgo : vs.foldr
        (fun v acc => some (match acc with | none => v | some w => max v w)) none with
    | none =>
      cases vs with
      | nil =>
        simp only [List.foldr_nil] at h
        cases h
        intro acc
        rfl
      | cons v' vs' =>
        simp only [List.foldr_cons] at hgo
        exact Option.noConfusion hgo
    | some w =>
      rw [hgo] at h
      injection h with h
      subst h
      intro acc
      show List.foldl max acc (v :: vs) = max acc (max v w)
      rw [List.foldl_cons, ih w hgo (max acc v), max_assoc]

theorem maxAgg_mem (vals : List ℚ) (m : ℚ)
    (h : vals.foldr
      (fun v acc => some (match acc with | none => v | some w => max v w)) none =
        some m) :
    m ∈ vals := by
  induction vals generalizing m with
  | nil => cases h
  | cons v vs ih =>
    simp only [List.foldr_cons] at h
    cases hgo : vs.foldr
        (fun v acc => some (match acc with | none => v | some w => max v w)) none with
    | none =>
      rw [hgo] at h
      cases h
      exact List.mem_cons_self v vs
    | some w =>
      rw [hgo] at h
      injection h with h
      subst h
      show max v w ∈ v :: vs
      rcases max_choice v w with hc | hc
      · rw [hc]; exact List.mem_cons_self v vs
      · rw [hc]; exact List.mem_cons_of_mem v (ih w hgo)

theorem foldl_min_le_init (vals : List ℚ) : ∀ acc : ℚ, vals.foldl min acc ≤ acc := by
  induction vals with
  | nil => intro acc; exact le_refl acc
  | cons v vs ih =>
    intro acc
    exact le_trans (ih (min acc v)) (min_le_left acc v)

theorem init_le_foldl_max (vals : List ℚ) : ∀ acc : ℚ, acc ≤ vals.foldl max acc := by
  induction vals with
  | nil => intro acc; exact le_refl acc
  | cons v vs ih =>
    intro acc
    exact le_trans (le_max_left acc v) (ih (max acc v))

theorem pyOr_minAgg (l : List (Option ℚ)) (acc : ℚ) (hacc : acc ≤ bigSentinel)
    (h0 : ∀ v ∈ l.filterMap id, v ≠ 0) :
    min acc (pyOrFloat (sqlMinAgg l) bigSentinel) = (l.filterMap id).foldl min acc := by
  unfold sqlMinAgg
  cases hv : l.filterMap id with
  | nil =>
    simp only [List.foldr_nil, pyOrFloat]
    rw [List.foldl_nil, min_eq_left hacc]
  | cons v vs =>
    have hsome : ∃ m, (v :: vs).foldr
        (fun v acc => some (match acc with | none => v | some w => min v w)) none =
          some m := ⟨_, rfl⟩
    obtain ⟨m, hm⟩ := hsome
    rw [hm]
    have hmem : m ∈ v :: vs := minAgg_mem _ _ hm
    have hne : m ≠ 0 := by
      have : m ∈ l.filterMap id := hv ▸ hmem
      exact h0 m this
    simp only [pyOrFloat, if_neg hne]
    rw [← minAgg_foldl _ _ hm acc]

theorem pyOr_maxAgg (l : List (Option ℚ)) (acc : ℚ) (hacc : -bigSentinel ≤ acc)
    (h0 : ∀ v ∈ l.filterMap id, v ≠ 0) :
    max acc (pyOrFloat (sqlMaxAgg l) (-bigSentinel)) =
      (l.filterMap id).foldl max acc := by
  unfold sqlMaxAgg
  cases hv : l.filterMap id with
  | nil =>
    simp only [List.foldr_nil, pyOrFloat]
    rw [List.foldl_nil, max_eq_left hacc]
  | cons v vs =>
    have hsome : ∃ m, (v :: vs).foldr
        (fun v acc => some (match acc with | none => v | some w => max v w)) none =
          some m := ⟨_, rfl⟩
    obtain ⟨m, hm⟩ := hsome
    rw [hm]
    have hmem : m ∈ v :: vs := maxAgg_mem _ _ hm
    have hne : m ≠ 0 := by
      have : m ∈ l.filterMap id := hv ▸ hmem
      exact h0 m this
    simp only [pyOrFloat, if_neg hne]
    rw [← maxAgg_foldl _ _ hm acc]

theorem fold_tables_min (tbls : List (List (Option ℚ))) :
    ∀ acc : ℚ, acc ≤ bigSentinel →
    (∀ l ∈ tbls, ∀ v ∈ l.filterMap id, v ≠ 0) →
    tbls.foldl (fun a l => min a (pyOrFloat (sqlMinAgg l) bigSentinel)) acc =
      ((tbls.map fun l => l.filterMap id).flatten).foldl min acc := by
  induction tbls with
  | nil => intro acc _ _; rfl
  | cons l rest ih =>
    intro acc hacc h0
    rw [List.foldl_cons, List.map_cons, List.flatten_cons, List.foldl_append]
    rw [pyOr_minAgg l acc hacc (h0 l (List.mem_cons_self l rest))]
    exact ih _ (le_trans (foldl_min_le_init _ acc) hacc)
      fun l' hl' => h0 l' (List.mem_cons_of_mem l hl')

theorem fold_tables_max (tbls : List (List (Option ℚ))) :
    ∀ acc : ℚ, -bigSentinel ≤ acc →
    (∀ l ∈ tbls, ∀ v ∈ l.filterMap id, v ≠ 0) →
    tbls.foldl (fun a l => max a (pyOrFloat (sqlMaxAgg l) (-bigSentinel))) acc =
      ((tbls.map fun l => l.filterMap id).flatten).foldl max acc := by
  induction tbls with
  | nil => intro acc _ _; rfl
  | cons l rest ih =>
    intro acc hacc h0
    rw [List.foldl_cons, List.map_cons, List.flatten_cons, List.foldl_append]
    rw [pyOr_maxAgg l acc hacc (h0 l (List.mem_cons_self l rest))]
    exact ih _ (le_trans hacc (init_le_foldl_max _ acc))
      fun l' hl' => h0 l' (List.mem_cons_of_mem l hl')

/-- C8 (amended): whenever no linked per-type start (resp. finish) value
is zero, the derived `ArchiveAcq.start_time` equals the minimum over all
linked per-type info start times and `finish_time` the maximum over all
finish times — folded against the sentinels `1e99` / `-1e99`, so that an
acquisition with no timed files yields the sentinel, not zero, and a
NULL info value contributes nothing.  (The zero-value exclusion is
forced by Python's `this_start or 1e99`, which treats the float `0.0`
like an absent aggregate — see the counterexample.) -/
theorem acq_start_finish_times (db : FileInfoDB) (files : List Nat)
    (h1 : ∀ v ∈ allStartTimes db files, v ≠ 0)
    (h2 : ∀ v ∈ allFinishTimes db files, v ≠ 0) :
    acq_start_time db files = (allStartTimes db files).foldl min bigSentinel ∧
    acq_finish_time db files = (allFinishTimes db files).foldl max (-bigSentinel) := by
  constructor
  · have e1 : acq_start_time db files =
        ((file_info_table db).map fun tbl =>
            (joinAcqFiles files tbl).map fun r => r.start_time).foldl
          (fun a l => min a (pyOrFloat (sqlMinAgg l) bigSentinel)) bigSentinel := rfl
    rw [e1, fold_tables_min _ bigSentinel (le_refl _) ?_]
    · suffices hls :
          ((((file_info_table db).map fun tbl =>
              (joinAcqFiles files tbl).map fun r => r.start_time).map
            fun l => l.filterMap id).flatten) = allStartTimes db files by
        rw [hls]
      unfold allStartTimes
      simp only [List.map_map]
      congr 1
      apply List.map_congr_left
      intro tbl _
      simp only [Function.comp]
      rw [List.filterMap_map]
      rfl
    · intro l hl v hv
      apply h1
      rcases List.mem_map.mp hl with ⟨tbl, htbl, rfl⟩
      unfold allStartTimes
      rw [List.mem_flatten]
      refine ⟨(joinAcqFiles files tbl).filterMap fun r => r.start_time, ?_, ?_⟩
      · exact List.mem_map.mpr ⟨tbl, htbl, rfl⟩
      · rw [List.filterMap_map] at hv
        simpa using hv
  · have e1 : acq_finish_time db files =
        ((file_info_table db).map fun tbl =>
            (joinAcqFiles files tbl).map fun r => r.finish_time).foldl
          (fun a l => max a (pyOrFloat (sqlMaxAgg l) (-bigSentinel))) (-bigSentinel) := rfl
    rw [e1, fold_tables_max _ (-bigSentinel) (le_refl _) ?_]
    · suffices hls :
          ((((file_info_table db).map fun tbl =>
              (joinAcqFiles files tbl).map fun r => r.finish_time).map
            fun l => l.filterMap id).flatten) = allFinishTimes db files by
        rw [hls]
      unfold allFinishTimes
      simp only [List.map_map]
      congr 1
      apply List.map_congr_left
      intro tbl _
      simp only [Function.comp]
      rw [List.filterMap_map]
      rfl
    · intro l hl v hv
      apply h2
      rcases List.mem_map.mp hl with ⟨tbl, htbl, rfl⟩
      unfold allFinishTimes
      rw [List.mem_flatten]
      refine ⟨(joinAcqFiles files tbl).filterMap fun r => r.finish_time, ?_, ?_⟩
      · exact List.mem_map.mpr ⟨tbl, htbl, rfl⟩
      · rw [List.filterMap_map] at hv
        simpa using hv

/-- Witness for C8: an acquisition with two correlator files whose info
rows carry start times 100, 200 and finish times 150, 250 has
`start_time` 100 and `finish_time` 250; one with no timed files yields
the sentinels. -/
theorem acq_start_finish_times_witness :
    acq_start_time
      ⟨[⟨1, some 100, some 150⟩, ⟨2, some 200, some 250⟩],
        [], [], [], [], [], [], [], [], []⟩ [1, 2] = 100 ∧
    acq_finish_time
      ⟨[⟨1, some 100, some 150⟩, ⟨2, some 200, some 250⟩],
        [], [], [], [], [], [], [], [], []⟩ [1, 2] = 250 ∧
    acq_start_time ⟨[], [], [], [], [], [], [], [], [], []⟩ [1] = bigSentinel ∧
    acq_finish_time ⟨[], [], [], [], [], [], [], [], [], []⟩ [1] = -bigSentinel := by
  have h := acq_start_finish_times
    ⟨[⟨1, some 100, some 150⟩, ⟨2, some 200, some 250⟩],
      [], [], [], [], [], [], [], [], []⟩ [1, 2] (by decide) (by decide)
  have h' := acq_start_finish_times
    ⟨[], [], [], [], [], [], [], [], [], []⟩ [1] (by decide) (by decide)
  refine ⟨?_, ?_, ?_, ?_⟩
  · rw [h.1]; decide
  · rw [h.2]; decide
  · rw [h'.1]; decide
  · rw [h'.2]; decide

/-- Counterexample for C8 as stated: an acquisition with one correlator
file whose info row has start and finish time `0.0` should, per the
claim, have `start_time` 0 and `finish_time` 0; instead Python's
falsy-`or` substitutes the sentinels `1e99` / `-1e99`. -/
theorem acq_start_finish_times_counterexample :
    allStartTimes ⟨[⟨1, some 0, some 0⟩], [], [], [], [], [], [], [], [], []⟩ [1] =
      [0] ∧
    acq_start_time ⟨[⟨1, some 0, some 0⟩], [], [], [], [], [], [], [], [], []⟩ [1] =
      bigSentinel ∧
    acq_finish_time ⟨[⟨1, some 0, some 0⟩], [], [], [], [], [], [], [], [], []⟩ [1] =
      -bigSentinel ∧
    bigSentinel ≠ 0 := by
  refine ⟨by decide, by decide, by decide, by decide⟩

-- C6 / C7: the `update_types` upsert machinery
-- ============================================

theorem map_id_of_forall {α : Type} (l : List α) (f : α → α)
    (h : ∀ x ∈ l, f x = x) : l.map f = l := by
  induction l with
  | nil => rfl
  | cons x xs ih =>
    rw [List.map_cons, h x (List.mem_cons_self x xs),
      ih fun y hy => h y (List.mem_cons_of_mem x hy)]

theorem sqlUpdateByName_some {α : Type} [DecidableEq α] (nm : α → String)
    (pk : α → Nat) (rec : α) (tbl tbl' : List α) (count : Nat)
    (h : sqlUpdateByName nm pk rec tbl = some (tbl', count)) :
    tbl' = tbl.map (fun r => if nm r = nm rec then rec else r) ∧
      count = tbl.countP fun r => nm r = nm rec := by
  unfold sqlUpdateByName at h
  dsimp only at h
  split at h
  · next heq =>
    injection h with h
    rw [Prod.mk.injEq] at h
    exact ⟨h.1.symm.trans heq.symm, h.2.symm⟩
  · split at h
    · injection h with h
      rw [Prod.mk.injEq] at h
      exact ⟨h.1.symm, h.2.symm⟩
    · cases h

theorem upsertByName_some {α : Type} [DecidableEq α] (nm : α → String)
    (pk : α → Nat) (ins : α → List α → Option (List α))
    (hins : ∀ (rec : α) (t t' : List α), ins rec t = some t' → t' = t ++ [rec])
    (rec : α) (tbl tbl' : List α)
    (h : upsertByName nm pk ins rec tbl = some tbl') :
    (tbl' = tbl.map (fun r => if nm r = nm rec then rec else r) ∧
      (tbl.countP fun r => nm r = nm rec) ≠ 0) ∨
    ((tbl.countP fun r => nm r = nm rec) = 0 ∧ tbl' = tbl ++ [rec]) := by
  unfold upsertByName at h
  cases hs : sqlUpdateByName nm pk rec tbl with
  | none => rw [hs] at h; cases h
  | some pr =>
    rw [hs] at h
    obtain ⟨tp, cnt⟩ := pr
    obtain ⟨h1, h2⟩ := sqlUpdateByName_some nm pk rec tbl tp cnt hs
    dsimp only at h
    by_cases hc : cnt = 0
    · rw [if_pos hc] at h
      exact Or.inr ⟨by rw [← h2]; exact hc, hins rec tbl tbl' h⟩
    · rw [if_neg hc] at h
      injection h with h
      exact Or.inl ⟨by rw [← h, h1], by rw [← h2]; exact hc⟩

theorem upsertByName_done {α : Type} [DecidableEq α] (nm : α → String)
    (pk : α → Nat) (ins : α → List α → Option (List α))
    (hins : ∀ (rec : α) (t t' : List α), ins rec t = some t' → t' = t ++ [rec])
    (rec : α) (tbl tbl' : List α)
    (h : upsertByName nm pk ins rec tbl = some tbl') :
    NameDone nm rec tbl' := by
  rcases upsertByName_some nm pk ins hins rec tbl tbl' h with ⟨rfl, hcnt⟩ | ⟨hcnt, rfl⟩
  · constructor
    · intro r hr hname
      rcases List.mem_map.mp hr with ⟨r0, hr0, rfl⟩
      by_cases hn : nm r0 = nm rec
      · rw [if_pos hn]
      · rw [if_neg hn] at hname ⊢
        exact absurd hname hn
    · have hpos : 0 < tbl.countP fun r => nm r = nm rec :=
        Nat.pos_of_ne_zero hcnt
      rcases List.countP_pos_iff.mp hpos with ⟨r0, hr0, hp⟩
      have hn : nm r0 = nm rec := by simpa using hp
      refine ⟨rec, List.mem_map.mpr ⟨r0, hr0, if_pos hn⟩, rfl⟩
  · constructor
    · intro r hr hname
      rcases List.mem_append.mp hr with hr | hr
      · have := List.countP_eq_zero.mp hcnt r hr
        simp only [decide_eq_true_eq] at this
        exact absurd hname this
      · exact List.mem_singleton.mp hr
    · exact ⟨rec, List.mem_append_right tbl (List.mem_singleton.mpr rfl), rfl⟩

theorem upsertByName_id {α : Type} [DecidableEq α] (nm : α → String)
    (pk : α → Nat) (ins : α → List α → Option (List α)) (rec : α)
    (tbl : List α) (hdone : NameDone nm rec tbl) :
    upsertByName nm pk ins rec tbl = some tbl := by
  have hmap : (tbl.map fun r => if nm r = nm rec then rec else r) = tbl :=
    map_id_of_forall tbl _ fun r hr => by
      by_cases hn : nm r = nm rec
      · rw [if_pos hn]
        exact (hdone.1 r hr hn).symm
      · rw [if_neg hn]
  have hcnt : (tbl.countP fun r => nm r = nm rec) ≠ 0 := by
    intro h0
    rcases hdone.2 with ⟨w, hw, hwname⟩
    have := List.countP_eq_zero.mp h0 w hw
    simp only [decide_eq_true_eq] at this
    exact this hwname
  unfold upsertByName sqlUpdateByName
  dsimp only
  rw [if_pos hmap]
  dsimp only
  rw [if_neg hcnt]

theorem upsertByName_preserve {α : Type} [DecidableEq α] (nm : α → String)
    (pk : α → Nat) (ins : α → List α → Option (List α))
    (hins : ∀ (rec : α) (t t' : List α), ins rec t = some t' → t' = t ++ [rec])
    (rec' rec : α) (hne : nm rec' ≠ nm rec) (tbl tbl' : List α)
    (h : upsertByName nm pk ins rec' tbl = some tbl')
    (hdone : NameDone nm rec tbl) : NameDone nm rec tbl' := by
  rcases upsertByName_some nm pk ins hins rec' tbl tbl' h with ⟨rfl, _⟩ | ⟨_, rfl⟩
  · constructor
    · intro r hr hname
      rcases List.mem_map.mp hr with ⟨r0, hr0, rfl⟩
      by_cases hn : nm r0 = nm rec'
      · rw [if_pos hn] at hname
        exact absurd hname hne
      · rw [if_neg hn] at hname ⊢
        exact hdone.1 r0 hr0 hname
    · rcases hdone.2 with ⟨w, hw, hwname⟩
      have hn : ¬ nm w = nm rec' := fun hcontra => hne (hcontra ▸ hwname ▸ rfl)
      refine ⟨w, List.mem_map.mpr ⟨w, hw, if_neg hn⟩, hwname⟩
  · constructor
    · intro r hr hname
      rcases List.mem_append.mp hr with hr | hr
      · exact hdone.1 r hr hname
      · rw [List.mem_singleton.mp hr] at hname
        exact absurd hname hne
    · rcases hdone.2 with ⟨w, hw, hwname⟩
      exact ⟨w, List.mem_append_left _ hw, hwname⟩

theorem seedTable_preserve {α : Type} [DecidableEq α] (nm : α → String)
    (pk : α → Nat) (ins : α → List α → Option (List α))
    (hins : ∀ (rec : α) (t t' : List α), ins rec t = some t' → t' = t ++ [rec])
    (rec : α) :
    ∀ (recs : List α) (tbl tbl' : List α),
    (∀ r ∈ recs, nm r ≠ nm rec) →
    seedTable nm pk ins recs tbl = some tbl' →
    NameDone nm rec tbl → NameDone nm rec tbl' := by
  intro recs
  induction recs with
  | nil =>
    intro tbl tbl' _ h hdone
    injection h with h
    exact h ▸ hdone
  | cons r rs ih =>
    intro tbl tbl' hne h hdone
    rw [seedTable, List.foldlM_cons] at h
    cases hu : upsertByName nm pk ins r tbl with
    | none => rw [hu] at h; cases h
    | some mid =>
      rw [hu] at h
      exact ih mid tbl' (fun r' hr' => hne r' (List.mem_cons_of_mem r hr')) h
        (upsertByName_preserve nm pk ins hins r rec
          (hne r (List.mem_cons_self r rs)) tbl mid hu hdone)

theorem seedTable_done {α : Type} [DecidableEq α] (nm : α → String)
    (pk : α → Nat) (ins : α → List α → Option (List α))
    (hins : ∀ (rec : α) (t t' : List α), ins rec t = some t' → t' = t ++ [rec]) :
    ∀ (recs : List α) (tbl tbl' : List α),
    recs.Pairwise (fun a b => nm a ≠ nm b) →
    seedTable nm pk ins recs tbl = some tbl' →
    ∀ rec ∈ recs, NameDone nm rec tbl' := by
  intro recs
  induction recs with
  | nil => intro tbl tbl' _ _ rec hrec; cases hrec
  | cons r rs ih =>
    intro tbl tbl' hpw h rec hrec
    rw [seedTable, List.foldlM_cons] at h
    cases hu : upsertByName nm pk ins r tbl with
    | none => rw [hu] at h; cases h
    | some mid =>
      rw [hu] at h
      rcases List.mem_cons.mp hrec with rfl | hrec
      · exact seedTable_preserve nm pk ins hins rec rs mid tbl'
          (fun r' hr' => ((List.pairwise_cons.mp hpw).1 r' hr').symm) h
          (upsertByName_done nm pk ins hins rec tbl mid hu)
      · exact ih mid tbl' (List.pairwise_cons.mp hpw).2 h rec hrec

theorem seedTable_id {α : Type} [DecidableEq α] (nm : α → String)
    (pk : α → Nat) (ins : α → List α → Option (List α)) :
    ∀ (recs : List α) (tbl : List α),
    (∀ rec ∈ recs, NameDone nm rec tbl) →
    seedTable nm pk ins recs tbl = some tbl := by
  intro recs
  induction recs with
  | nil => intro tbl _; rfl
  | cons r rs ih =>
    intro tbl hdone
    rw [seedTable, List.foldlM_cons,
      upsertByName_id nm pk ins r tbl (hdone r (List.mem_cons_self r rs))]
    exact ih tbl fun rec hrec => hdone rec (List.mem_cons_of_mem r hrec)

theorem insertAcqTypeRow_shape :
    ∀ (rec : AcqTypeRow) (t t' : List AcqTypeRow),
    insertAcqTypeRow rec t = some t' → t' = t ++ [rec] := by
  intro rec t t' h
  unfold insertAcqTypeRow at h
  split at h
  · cases h
  · injection h with h
    exact h.symm

theorem insertFileTypeRow_shape :
    ∀ (rec : FileTypeRow) (t t' : List FileTypeRow),
    insertFileTypeRow rec t = some t' → t' = t ++ [rec] := by
  intro rec t t' h
  unfold insertFileTypeRow at h
  split at h
  · cases h
  · injection h with h
    exact h.symm

theorem find?_eq_of_done {α : Type} (p : α → Bool) (rec : α) :
    ∀ tbl : List α, (∀ r ∈ tbl, p r = true → r = rec) →
    (∃ r ∈ tbl, p r = true) → tbl.find? p = some rec := by
  intro tbl
  induction tbl with
  | nil =>
    intro _ hex
    rcases hex with ⟨r, hr, _⟩
    cases hr
  | cons x xs ih =>
    intro hall hex
    cases hp : p x with
    | true =>
      rw [List.find?_cons_of_pos _ hp]
      rw [hall x (List.mem_cons_self x xs) hp]
    | false =>
      rw [List.find?_cons_of_neg _ (by simp [hp])]
      apply ih fun r hr hpr => hall r (List.mem_cons_of_mem x hr) hpr
      rcases hex with ⟨r, hr, hpr⟩
      rcases List.mem_cons.mp hr with rfl | hr
      · rw [hp] at hpr
        cases hpr
      · exact ⟨r, hr, hpr⟩

theorem acqTypeGet_done (rec : AcqTypeRow) (tbl : List AcqTypeRow) (n : String)
    (h : NameDone (fun r => r.name) rec tbl) (hn : rec.name = n) :
    acqTypeGet tbl n = some rec := by
  unfold acqTypeGet
  apply find?_eq_of_done
  · intro r hr hp
    have hrn : r.name = n := by simpa using hp
    exact h.1 r hr (by show r.name = rec.name; rw [hrn]; exact hn.symm)
  · rcases h.2 with ⟨w, hw, hwname⟩
    exact ⟨w, hw, by simp only [hwname, hn]; simp⟩

theorem fileTypeGetOpt_done (rec : FileTypeRow) (tbl : List FileTypeRow) (n : String)
    (h : NameDone (fun r => r.name) rec tbl) (hn : rec.name = n) :
    fileTypeGetOpt tbl n = some rec := by
  unfold fileTypeGetOpt
  apply find?_eq_of_done
  · intro r hr hp
    have hrn : r.name = n := by simpa using hp
    exact h.1 r hr (by show r.name = rec.name; rw [hrn]; exact hn.symm)
  · rcases h.2 with ⟨w, hw, hwname⟩
    exact ⟨w, hw, by simp only [hwname, hn]; simp⟩

theorem canonAcq_get (n : String) (a_t : AcqTypeRow) (hc : canonAcq n = some a_t)
    (tbl : List AcqTypeRow)
    (hacq : ∀ rec ∈ acqtypes, NameDone (fun r => r.name) rec tbl) :
    acqTypeGet tbl n = some a_t ∧ canonAcqId n = a_t.id := by
  have hmem : a_t ∈ acqtypes := List.mem_of_find?_eq_some hc
  have hname : a_t.name = n := by
    have := List.find?_some hc
    simpa using this
  refine ⟨acqTypeGet_done a_t tbl n (hacq a_t hmem) hname, ?_⟩
  unfold canonAcqId
  rw [hc]
  rfl

theorem canonFt_get (n : String) (f_t : FileTypeRow) (hc : canonFt n = some f_t)
    (tbl : List FileTypeRow)
    (hft : ∀ rec ∈ filetypes, NameDone (fun r => r.name) rec tbl) :
    fileTypeGetOpt tbl n = some f_t ∧ canonFtId n = f_t.id := by
  have hmem : f_t ∈ filetypes := List.mem_of_find?_eq_some hc
  have hname : f_t.name = n := by
    have := List.find?_some hc
    simpa using this
  refine ⟨fileTypeGetOpt_done f_t tbl n (hft f_t hmem) hname, ?_⟩
  unfold canonFtId
  rw [hc]
  rfl

theorem assocFix_eq (st : TypeDB) (pr : String × String) (a_t : AcqTypeRow)
    (f_t : FileTypeRow) (hga : acqTypeGet st.acqTypes pr.1 = some a_t)
    (hgf : fileTypeGetOpt st.fileTypes pr.2 = some f_t) :
    assocFix st pr = some
      { st with acqFileTypes :=
          if ((st.acqFileTypes.filter fun p =>
                !(p.acq_type = a_t.id ∧ p.file_type ≠ f_t.id)).any
              fun p => p.acq_type = a_t.id ∧ p.file_type = f_t.id) then
            st.acqFileTypes.filter fun p =>
              !(p.acq_type = a_t.id ∧ p.file_type ≠ f_t.id)
          else
            (st.acqFileTypes.filter fun p =>
              !(p.acq_type = a_t.id ∧ p.file_type ≠ f_t.id)) ++ [⟨a_t.id, f_t.id⟩] } := by
  unfold assocFix
  rw [hga, hgf]

theorem assocFix_tables (st st' : TypeDB) (pr : String × String)
    (h : assocFix st pr = some st') :
    st'.acqTypes = st.acqTypes ∧ st'.fileTypes = st.fileTypes := by
  unfold assocFix at h
  cases hga : acqTypeGet st.acqTypes pr.1 with
  | none => rw [hga] at h; cases h
  | some a_t =>
    rw [hga] at h
    cases hgf : fileTypeGetOpt st.fileTypes pr.2 with
    | none => rw [hgf] at h; cases h
    | some f_t =>
      rw [hgf] at h
      injection h with h
      subst h
      exact ⟨rfl, rfl⟩

theorem filterDel_prop (assoc : List AcqFileTypesRow) (aid fid : Nat) :
    ∀ p ∈ assoc.filter fun p => !(p.acq_type = aid ∧ p.file_type ≠ fid),
      p.acq_type = aid → p.file_type = fid := by
  intro p hp hacq
  have hpred := List.of_mem_filter hp
  simp only [Bool.not_eq_true', decide_eq_false_iff_not] at hpred
  by_contra hne
  exact hpred ⟨hacq, hne⟩

theorem filterDel_mem (assoc : List AcqFileTypesRow) (aid fid aid' : Nat)
    (hne : aid' ≠ aid) :
    ∀ p ∈ assoc, p.acq_type = aid' →
      p ∈ assoc.filter fun p => !(p.acq_type = aid ∧ p.file_type ≠ fid) := by
  intro p hp hacq
  refine List.mem_filter.mpr ⟨hp, ?_⟩
  simp [hacq, hne]

theorem assocFix_done (st st' : TypeDB) (pr : String × String) (a_t : AcqTypeRow)
    (f_t : FileTypeRow) (hga : acqTypeGet st.acqTypes pr.1 = some a_t)
    (hgf : fileTypeGetOpt st.fileTypes pr.2 = some f_t)
    (h : assocFix st pr = some st') :
    AssocDone a_t.id f_t.id st'.acqFileTypes := by
  rw [assocFix_eq st pr a_t f_t hga hgf] at h
  injection h with h
  subst h
  dsimp only
  split
  · next hany =>
    refine ⟨filterDel_prop st.acqFileTypes a_t.id f_t.id, ?_⟩
    rcases List.any_eq_true.mp hany with ⟨p, hp, hpred⟩
    have hpq : p.acq_type = a_t.id ∧ p.file_type = f_t.id := by simpa using hpred
    exact ⟨p, hp, hpq⟩
  · next hany =>
    constructor
    · intro p hp hacq
      rcases List.mem_append.mp hp with hp | hp
      · exact filterDel_prop st.acqFileTypes a_t.id f_t.id p hp hacq
      · rw [List.mem_singleton.mp hp]
    · exact ⟨⟨a_t.id, f_t.id⟩,
        List.mem_append_right _ (List.mem_singleton.mpr rfl), rfl, rfl⟩

theorem assocFix_preserve (st st' : TypeDB) (pr : String × String)
    (a_t : AcqTypeRow) (f_t : FileTypeRow)
    (hga : acqTypeGet st.acqTypes pr.1 = some a_t)
    (hgf : fileTypeGetOpt st.fileTypes pr.2 = some f_t)
    (h : assocFix st pr = some st') (aid fid : Nat) (hne : aid ≠ a_t.id)
    (hd : AssocDone aid fid st.acqFileTypes) :
    AssocDone aid fid st'.acqFileTypes := by
  rw [assocFix_eq st pr a_t f_t hga hgf] at h
  injection h with h
  subst h
  dsimp only
  split
  · constructor
    · intro p hp hacq
      exact hd.1 p (List.mem_of_mem_filter hp) hacq
    · rcases hd.2 with ⟨w, hw, hwa, hwf⟩
      exact ⟨w, filterDel_mem st.acqFileTypes a_t.id f_t.id aid hne w hw hwa,
        hwa, hwf⟩
  · constructor
    · intro p hp hacq
      rcases List.mem_append.mp hp with hp | hp
      · exact hd.1 p (List.mem_of_mem_filter hp) hacq
      · rw [List.mem_singleton.mp hp] at hacq
        exact absurd hacq.symm hne
    · rcases hd.2 with ⟨w, hw, hwa, hwf⟩
      exact ⟨w, List.mem_append_left _
        (filterDel_mem st.acqFileTypes a_t.id f_t.id aid hne w hw hwa), hwa, hwf⟩

theorem assocFix_nodup (st st' : TypeDB) (pr : String × String)
    (h : assocFix st pr = some st') (hnd : st.acqFileTypes.Nodup) :
    st'.acqFileTypes.Nodup := by
  unfold assocFix at h
  cases hga : acqTypeGet st.acqTypes pr.1 with
  | none => rw [hga] at h; cases h
  | some a_t =>
    rw [hga] at h
    cases hgf : fileTypeGetOpt st.fileTypes pr.2 with
    | none => rw [hgf] at h; cases h
    | some f_t =>
      rw [hgf] at h
      injection h with h
      subst h
      dsimp only
      have hndDel : (st.acqFileTypes.filter fun p =>
          !(p.acq_type = a_t.id ∧ p.file_type ≠ f_t.id)).Nodup := hnd.filter _
      split
      · exact hndDel
      · next hany =>
        rw [List.nodup_append]
        refine ⟨hndDel, List.nodup_singleton _, ?_⟩
        intro x hx hx1
        rw [List.mem_singleton.mp hx1] at hx
        have h3 := List.any_eq_false.mp (Bool.eq_false_iff.mpr hany) _ hx
        exact h3 (by simp)

theorem assocFix_id (st : TypeDB) (pr : String × String) (a_t : AcqTypeRow)
    (f_t : FileTypeRow) (hga : acqTypeGet st.acqTypes pr.1 = some a_t)
    (hgf : fileTypeGetOpt st.fileTypes pr.2 = some f_t)
    (hd : AssocDone a_t.id f_t.id st.acqFileTypes) :
    assocFix st pr = some st := by
  rw [assocFix_eq st pr a_t f_t hga hgf]
  have hdel : (st.acqFileTypes.filter fun p =>
      !(p.acq_type = a_t.id ∧ p.file_type ≠ f_t.id)) = st.acqFileTypes := by
    apply List.filter_eq_self.mpr
    intro p hp
    by_cases hacq : p.acq_type = a_t.id
    · have := hd.1 p hp hacq
      simp [hacq, this]
    · simp [hacq]
  rw [hdel]
  have hany : (st.acqFileTypes.any
      fun p => p.acq_type = a_t.id ∧ p.file_type = f_t.id) = true := by
    rcases hd.2 with ⟨w, hw, hwa, hwf⟩
    exact List.any_eq_true.mpr ⟨w, hw, by simp [hwa, hwf]⟩
  rw [hany]
  rfl

theorem assocLoop_tables :
    ∀ (prs : List (String × String)) (st st' : TypeDB),
    prs.foldlM assocFix st = some st' →
    st'.acqTypes = st.acqTypes ∧ st'.fileTypes = st.fileTypes := by
  intro prs
  induction prs with
  | nil =>
    intro st st' h
    injection h with h
    subst h
    exact ⟨rfl, rfl⟩
  | cons pr prs ih =>
    intro st st' h
    rw [List.foldlM_cons] at h
    cases hstep : assocFix st pr with
    | none => rw [hstep] at h; cases h
    | some mid =>
      rw [hstep] at h
      obtain ⟨e1, e2⟩ := assocFix_tables st mid pr hstep
      obtain ⟨f1, f2⟩ := ih mid st' h
      exact ⟨f1.trans e1, f2.trans e2⟩

theorem assocLoop_preserve :
    ∀ (prs : List (String × String)) (st st' : TypeDB),
    prs.foldlM assocFix st = some st' →
    (∀ rec ∈ acqtypes, NameDone (fun r => r.name) rec st.acqTypes) →
    (∀ pr ∈ prs, (canonAcq pr.1).isSome = true) →
    ∀ aid fid : Nat, (∀ pr ∈ prs, canonAcqId pr.1 ≠ aid) →
    AssocDone aid fid st.acqFileTypes → AssocDone aid fid st'.acqFileTypes := by
  intro prs
  induction prs with
  | nil =>
    intro st st' h _ _ aid fid _ hd
    injection h with h
    subst h
    exact hd
  | cons pr prs ih =>
    intro st st' h hacq hmemA aid fid hne hd
    rw [List.foldlM_cons] at h
    cases hstep : assocFix st pr with
    | none => rw [hstep] at h; cases h
    | some mid =>
      rw [hstep] at h
      obtain ⟨a_t, hca⟩ :=
        Option.isSome_iff_exists.mp (hmemA pr (List.mem_cons_self pr prs))
      obtain ⟨hga, hid⟩ := canonAcq_get pr.1 a_t hca st.acqTypes hacq
      cases hgf : fileTypeGetOpt st.fileTypes pr.2 with
      | none =>
        exfalso
        unfold assocFix at hstep
        rw [hga, hgf] at hstep
        cases hstep
      | some f_t =>
        have hmid := assocFix_preserve st mid pr a_t f_t hga hgf hstep aid fid
          (fun heq => hne pr (List.mem_cons_self pr prs) (hid.trans heq.symm)) hd
        obtain ⟨e1, _⟩ := assocFix_tables st mid pr hstep
        refine ih mid st' h (fun rec hrec => e1 ▸ hacq rec hrec)
          (fun pr' hpr' => hmemA pr' (List.mem_cons_of_mem pr hpr')) aid fid
          (fun pr' hpr' => hne pr' (List.mem_cons_of_mem pr hpr')) hmid

theorem assocLoop_done :
    ∀ (prs : List (String × String)) (st st' : TypeDB),
    prs.foldlM assocFix st = some st' →
    (∀ rec ∈ acqtypes, NameDone (fun r => r.name) rec st.acqTypes) →
    (∀ rec ∈ filetypes, NameDone (fun r => r.name) rec st.fileTypes) →
    (∀ pr ∈ prs, (canonAcq pr.1).isSome = true ∧ (canonFt pr.2).isSome = true) →
    prs.Pairwise (fun a b => canonAcqId a.1 ≠ canonAcqId b.1) →
    ∀ pr ∈ prs, AssocDone (canonAcqId pr.1) (canonFtId pr.2) st'.acqFileTypes := by
  intro prs
  induction prs with
  | nil => intro st st' _ _ _ _ _ pr hpr; cases hpr
  | cons pr0 prs ih =>
    intro st st' h hacq hft hmem hpw pr hpr
    rw [List.foldlM_cons] at h
    cases hstep : assocFix st pr0 with
    | none => rw [hstep] at h; cases h
    | some mid =>
      rw [hstep] at h
      obtain ⟨e1, e2⟩ := assocFix_tables st mid pr0 hstep
      rcases List.mem_cons.mp hpr with rfl | hpr
      · obtain ⟨a_t, hca⟩ :=
          Option.isSome_iff_exists.mp (hmem pr (List.mem_cons_self pr prs)).1
        obtain ⟨f_t, hcf⟩ :=
          Option.isSome_iff_exists.mp (hmem pr (List.mem_cons_self pr prs)).2
        obtain ⟨hga, hid⟩ := canonAcq_get pr.1 a_t hca st.acqTypes hacq
        obtain ⟨hgf, hfid⟩ := canonFt_get pr.2 f_t hcf st.fileTypes hft
        have hdone0 : AssocDone (canonAcqId pr.1) (canonFtId pr.2) mid.acqFileTypes := by
          rw [hid, hfid]
          exact assocFix_done st mid pr a_t f_t hga hgf hstep
        refine assocLoop_preserve prs mid st' h
          (fun rec hrec => e1 ▸ hacq rec hrec)
          (fun pr' hpr' => (hmem pr' (List.mem_cons_of_mem pr hpr')).1)
          (canonAcqId pr.1) (canonFtId pr.2)
          (fun pr' hpr' => ((List.pairwise_cons.mp hpw).1 pr' hpr').symm) hdone0
      · refine ih mid st' h (fun rec hrec => e1 ▸ hacq rec hrec)
          (fun rec hrec => e2 ▸ hft rec hrec)
          (fun pr' hpr' => hmem pr' (List.mem_cons_of_mem pr0 hpr'))
          (List.pairwise_cons.mp hpw).2 pr hpr

theorem assocLoop_id :
    ∀ (prs : List (String × String)) (st : TypeDB),
    (∀ rec ∈ acqtypes, NameDone (fun r => r.name) rec st.acqTypes) →
    (∀ rec ∈ filetypes, NameDone (fun r => r.name) rec st.fileTypes) →
    (∀ pr ∈ prs, (canonAcq pr.1).isSome = true ∧ (canonFt pr.2).isSome = true) →
    (∀ pr ∈ prs, AssocDone (canonAcqId pr.1) (canonFtId pr.2) st.acqFileTypes) →
    prs.foldlM assocFix st = some st := by
  intro prs
  induction prs with
  | nil => intro st _ _ _ _; rfl
  | cons pr prs ih =>
    intro st hacq hft hmem hdone
    obtain ⟨a_t, hca⟩ :=
      Option.isSome_iff_exists.mp (hmem pr (List.mem_cons_self pr prs)).1
    obtain ⟨f_t, hcf⟩ :=
      Option.isSome_iff_exists.mp (hmem pr (List.mem_cons_self pr prs)).2
    obtain ⟨hga, hid⟩ := canonAcq_get pr.1 a_t hca st.acqTypes hacq
    obtain ⟨hgf, hfid⟩ := canonFt_get pr.2 f_t hcf st.fileTypes hft
    have hd : AssocDone a_t.id f_t.id st.acqFileTypes := by
      rw [← hid, ← hfid]
      exact hdone pr (List.mem_cons_self pr prs)
    rw [List.foldlM_cons, assocFix_id st pr a_t f_t hga hgf hd]
    exact ih st hacq hft
      (fun pr' hpr' => hmem pr' (List.mem_cons_of_mem pr hpr'))
      (fun pr' hpr' => hdone pr' (List.mem_cons_of_mem pr hpr'))

theorem assocLoop_nodup :
    ∀ (prs : List (String × String)) (st st' : TypeDB),
    prs.foldlM assocFix st = some st' →
    st.acqFileTypes.Nodup → st'.acqFileTypes.Nodup := by
  intro prs
  induction prs with
  | nil =>
    intro st st' h hnd
    injection h with h
    subst h
    exact hnd
  | cons pr prs ih =>
    intro st st' h hnd
    rw [List.foldlM_cons] at h
    cases hstep : assocFix st pr with
    | none => rw [hstep] at h; cases h
    | some mid =>
      rw [hstep] at h
      exact ih mid st' h (assocFix_nodup st mid pr hstep hnd)

theorem update_types_run (st s1 : TypeDB) (h : update_types st = some s1) :
    (∀ rec ∈ acqtypes, NameDone (fun r => r.name) rec s1.acqTypes) ∧
    (∀ rec ∈ filetypes, NameDone (fun r => r.name) rec s1.fileTypes) ∧
    (∀ pr ∈ acqFileTypePairs,
      AssocDone (canonAcqId pr.1) (canonFtId pr.2) s1.acqFileTypes) ∧
    (st.acqFileTypes.Nodup → s1.acqFileTypes.Nodup) := by
  have hu : update_types st =
      (seedTable (fun r => r.name) (fun r => r.id) insertAcqTypeRow acqtypes
        st.acqTypes).bind fun a =>
      (seedTable (fun r => r.name) (fun r => r.id) insertFileTypeRow filetypes
        st.fileTypes).bind fun f =>
      acqFileTypePairs.foldlM assocFix { st with acqTypes := a, fileTypes := f } := rfl
  rw [hu] at h
  rcases Option.bind_eq_some.mp h with ⟨a, hA, h⟩
  rcases Option.bind_eq_some.mp h with ⟨f, hF, h⟩
  have hdoneA : ∀ rec ∈ acqtypes, NameDone (fun r => r.name) rec a :=
    seedTable_done _ _ _ insertAcqTypeRow_shape acqtypes st.acqTypes a (by decide) hA
  have hdoneF : ∀ rec ∈ filetypes, NameDone (fun r => r.name) rec f :=
    seedTable_done _ _ _ insertFileTypeRow_shape filetypes st.fileTypes f
      (by decide) hF
  obtain ⟨hT1, hT2⟩ :=
    assocLoop_tables acqFileTypePairs { st with acqTypes := a, fileTypes := f } s1 h
  have hT1' : s1.acqTypes = a := hT1
  have hT2' : s1.fileTypes = f := hT2
  refine ⟨?_, ?_, ?_, ?_⟩
  · intro rec hrec
    rw [hT1']
    exact hdoneA rec hrec
  · intro rec hrec
    rw [hT2']
    exact hdoneF rec hrec
  · exact assocLoop_done acqFileTypePairs _ s1 h hdoneA hdoneF (by decide) (by decide)
  · intro hnd
    exact assocLoop_nodup acqFileTypePairs _ s1 h hnd

theorem update_types_idem (st s1 : TypeDB) (h : update_types st = some s1) :
    update_types s1 = some s1 := by
  obtain ⟨hA, hF, hAssoc, _⟩ := update_types_run st s1 h
  have e1 : seedTable (fun r => r.name) (fun r => r.id) insertAcqTypeRow acqtypes
      s1.acqTypes = some s1.acqTypes := seedTable_id _ _ _ acqtypes s1.acqTypes hA
  have e2 : seedTable (fun r => r.name) (fun r => r.id) insertFileTypeRow filetypes
      s1.fileTypes = some s1.fileTypes := seedTable_id _ _ _ filetypes s1.fileTypes hF
  have e3 : acqFileTypePairs.foldlM assocFix s1 = some s1 :=
    assocLoop_id acqFileTypePairs s1 hA hF (by decide) hAssoc
  have hu : update_types s1 =
      (seedTable (fun r => r.name) (fun r => r.id) insertAcqTypeRow acqtypes
        s1.acqTypes).bind fun a =>
      (seedTable (fun r => r.name) (fun r => r.id) insertFileTypeRow filetypes
        s1.fileTypes).bind fun f =>
      acqFileTypePairs.foldlM assocFix { s1 with acqTypes := a, fileTypes := f } := rfl
  rw [hu]
  exact Option.bind_eq_some.mpr ⟨s1.acqTypes, e1,
    Option.bind_eq_some.mpr ⟨s1.fileTypes, e2, e3⟩⟩

/-- C6: running `update_types` twice in succession leaves the AcqType,
FileType, and AcqFileTypes tables in a final state identical to running
it once, for every starting database state (the routine runs in an
atomic transaction, so on error the state is unchanged). -/
theorem update_types_idempotent (st : TypeDB) :
    typesFinalState (typesFinalState st) = typesFinalState st := by
  unfold typesFinalState
  cases h : update_types st with
  | none =>
    simp only [Option.getD_none]
    rw [h]
    rfl
  | some s1 =>
    simp only [Option.getD_some]
    rw [update_types_idem st s1 h]
    rfl

theorem countP_eq_one_of_nodup {α : Type} (l : List α) (q : α → Bool) (v : α)
    (hnd : l.Nodup) (hv : v ∈ l) (hall : ∀ p ∈ l, q p = true → p = v)
    (hqv : q v = true) : l.countP q = 1 := by
  rw [List.countP_eq_length_filter]
  have hvf : v ∈ l.filter q := List.mem_filter.mpr ⟨hv, hqv⟩
  have hallf : ∀ p ∈ l.filter q, p = v := fun p hp =>
    hall p (List.mem_of_mem_filter hp) (List.of_mem_filter hp)
  have hndf : (l.filter q).Nodup := hnd.filter q
  cases hf : l.filter q with
  | nil => rw [hf] at hvf; cases hvf
  | cons x xs =>
    rw [hf] at hallf hndf
    cases xs with
    | nil => rfl
    | cons y ys =>
      exfalso
      have hx : x = v := hallf x (List.mem_cons_self x (y :: ys))
      have hy : y = v := hallf y
        (List.mem_cons_of_mem x (List.mem_cons_self y ys))
      have hxy : x ∈ y :: ys := by
        rw [hx, ← hy]
        exact List.mem_cons_self y ys
      exact (List.nodup_cons.mp hndf).1 hxy

/-- C7 (amended): after a successful `update_types` on tables whose
junction table respects its composite primary key, each of the seven
acquisition types with a canonical pairing (`corr`, `rawadc`,
`weather`, `digitalgain`, `gain`, `flaginput`, `hfb`) has exactly one
supported-file-type association — the canonical one — in AcqFileTypes.
The canonical acquisition types `hk` and `hkp` have no pairing in the
routine and their associations are untouched (see the counterexample),
so the claim does not hold for every canonical acquisition type. -/
theorem update_types_assoc_unique (st s1 : TypeDB)
    (h : update_types st = some s1) (hnd : st.acqFileTypes.Nodup) :
    ∀ pr ∈ acqFileTypePairs,
      (s1.acqFileTypes.countP fun p => p.acq_type = canonAcqId pr.1) = 1 ∧
      (⟨canonAcqId pr.1, canonFtId pr.2⟩ : AcqFileTypesRow) ∈ s1.acqFileTypes := by
  obtain ⟨_, _, hassoc, hndf⟩ := update_types_run st s1 h
  intro pr hpr
  obtain ⟨hall, w, hw, hwa, hwf⟩ := hassoc pr hpr
  have hweq : w = ⟨canonAcqId pr.1, canonFtId pr.2⟩ := by
    cases w with
    | mk wa wf =>
      dsimp only at hwa hwf
      rw [hwa, hwf]
  constructor
  · apply countP_eq_one_of_nodup s1.acqFileTypes _
      (⟨canonAcqId pr.1, canonFtId pr.2⟩ : AcqFileTypesRow) (hndf hnd)
      (hweq ▸ hw)
    · intro p hp hq
      have hpacq : p.acq_type = canonAcqId pr.1 := by simpa using hq
      have hpf : p.file_type = canonFtId pr.2 := hall p hp hpacq
      cases p with
      | mk pa pf =>
        dsimp only at hpacq hpf
        rw [hpacq, hpf]
    · simp
  · exact hweq ▸ hw

/-- Witness for C7: from empty tables, `update_types` produces exactly
one association for the `corr` acquisition type, namely the canonical
(corr, corr) pairing. -/
theorem update_types_assoc_unique_witness :
    (canonicalTypeDB.acqFileTypes.countP
      fun p => p.acq_type = canonAcqId "corr") = 1 ∧
    (⟨canonAcqId "corr", canonFtId "corr"⟩ : AcqFileTypesRow) ∈
      canonicalTypeDB.acqFileTypes :=
  update_types_assoc_unique emptyTypeDB canonicalTypeDB (by decide) (by decide)
    ("corr", "corr") (by decide)

/-- Counterexample for C7 as stated: `hk` is a canonical acquisition
type, yet after `update_types` on empty tables it has no association at
all in AcqFileTypes (the routine's pairing list does not cover it), so
not every canonical acquisition type ends with exactly one
supported-file-type association. -/
theorem update_types_hk_counterexample :
    update_types emptyTypeDB = some canonicalTypeDB ∧
    "hk" ∈ acqtypes.map (fun r => r.name) ∧
    (canonicalTypeDB.acqFileTypes.countP
      fun p => p.acq_type = canonAcqId "hk") = 0 :=
  ⟨by decide, by decide, by decide⟩

-- C9: `md5sum_file` streaming equals one-shot MD5
-- ===============================================

theorem md5Update_eq (bytes : List Nat) :
    ∀ (h : Nat × Nat × Nat × Nat) (buf : List Nat) (n : Nat),
    md5Update (h, buf, n) bytes =
      ((splitBlocksAux buf bytes).1.foldl md5Compress h,
       (splitBlocksAux buf bytes).2, n + bytes.length) := by
  induction bytes with
  | nil =>
    intro h buf n
    simp [md5Update, splitBlocksAux]
  | cons b rest ih =>
    intro h buf n
    have e : md5Update (h, buf, n) (b :: rest) =
        md5Update (md5AbsorbByte (h, buf, n) b) rest := rfl
    rw [e]
    unfold md5AbsorbByte
    dsimp only
    by_cases hlen : (buf ++ [b]).length = 64
    · rw [if_pos hlen, ih]
      simp only [splitBlocksAux]
      rw [if_pos hlen]
      simp only [List.foldl_cons, List.length_cons]
      exact congrArg (Prod.mk _) (congrArg (Prod.mk _) (by omega))
    · rw [if_neg hlen, ih]
      simp only [splitBlocksAux]
      rw [if_neg hlen]
      simp only [List.length_cons]
      exact congrArg (Prod.mk _) (congrArg (Prod.mk _) (by omega))

theorem splitBlocksAux_append (xs : List Nat) :
    ∀ (acc ys : List Nat),
    splitBlocksAux acc (xs ++ ys) =
      ((splitBlocksAux acc xs).1 ++
        (splitBlocksAux (splitBlocksAux acc xs).2 ys).1,
       (splitBlocksAux (splitBlocksAux acc xs).2 ys).2) := by
  induction xs with
  | nil => intro acc ys; simp [splitBlocksAux]
  | cons x xs ih =>
    intro acc ys
    simp only [List.cons_append, splitBlocksAux, List.append_eq]
    by_cases hlen : (acc ++ [x]).length = 64
    · rw [if_pos hlen, if_pos hlen, ih [] ys]
      simp
    · rw [if_neg hlen, if_neg hlen, ih (acc ++ [x]) ys]

theorem chunksOfAux_flatten (k : Nat) :
    ∀ (l acc : List Nat), (chunksOfAux k acc l).flatten = acc ++ l := by
  intro l
  induction l with
  | nil =>
    intro acc
    unfold chunksOfAux
    by_cases hacc : acc.isEmpty
    · rw [if_pos hacc]
      rw [List.isEmpty_iff.mp hacc]
      rfl
    · rw [if_neg hacc]
      simp
  | cons b rest ih =>
    intro acc
    unfold chunksOfAux
    dsimp only
    by_cases hlen : (acc ++ [b]).length = k
    · rw [if_pos hlen]
      rw [List.flatten_cons, ih []]
      simp
    · rw [if_neg hlen, ih (acc ++ [b])]
      simp

theorem md5Update_chunks (css : List (List Nat)) :
    ∀ st : MD5Ctx, css.foldl md5Update st = md5Update st css.flatten := by
  induction css with
  | nil => intro st; rfl
  | cons cs css ih =>
    intro st
    rw [List.foldl_cons, ih (md5Update st cs), List.flatten_cons]
    unfold md5Update
    rw [List.foldl_append]

/-- C9: `md5sum_file` reads the contents in fixed `256 * 128`-byte
blocks and feeds them to an incremental MD5 object, yet its result is
exactly the standard (RFC 1321) MD5 digest of the whole contents — a
32-character lowercase hex string when `hr` is true and the raw 16
digest bytes when `hr` is false; on the bytes `"abc"` it yields the
standard test vector `900150983cd24fb0d6963f7d28e17f72`. -/
theorem md5sum_file_spec :
    (∀ content : List Nat,
      md5sum_file content true =
        Sum.inl (String.mk (hexOfBytes (md5_spec content))) ∧
      md5sum_file content false = Sum.inr (md5_spec content)) ∧
    md5sum_file [97, 98, 99] true =
      Sum.inl "900150983cd24fb0d6963f7d28e17f72" ∧
    md5sum_file [97, 98, 99] false = Sum.inr
      [0x90, 0x01, 0x50, 0x98, 0x3c, 0xd2, 0x4f, 0xb0,
       0xd6, 0x96, 0x3f, 0x7d, 0x28, 0xe1, 0x7f, 0x72] := by
  have hdig : ∀ content : List Nat,
      md5Finalize ((chunksOf md5_block_size content).foldl md5Update md5InitCtx) =
        md5_spec content := by
    intro content
    rw [md5Update_chunks]
    rw [show (chunksOf md5_block_size content).flatten = content from by
      unfold chunksOf
      rw [chunksOfAux_flatten]
      rfl]
    show md5Finalize (md5Update (md5Init, [], 0) content) = md5_spec content
    rw [md5Update_eq content md5Init [] 0]
    unfold md5Finalize
    dsimp only
    rw [md5Update_eq]
    unfold md5_spec
    dsimp only
    rw [Nat.zero_add]
    rw [splitBlocksAux_append content [] (md5Padding content.length)]
    dsimp only
    rw [List.foldl_append]
  refine ⟨?_, by decide, by decide⟩
  intro content
  constructor
  · unfold md5sum_file
    dsimp only
    rw [if_pos rfl, hdig content]
  · unfold md5sum_file
    dsimp only
    rw [if_neg (by simp), hdig content]
